import Mathlib

/-!
Verification of the collaboration-extraction and output-assembly logic of
`fetch_nwo_data.py` (OSNL dashboard data pipeline).

The Python script is shallowly embedded: JSON string-or-null field values
become `Option`-typed fields, Python dicts become association lists in
insertion order, and the one runtime error the aggregation can raise
(calling `.strip()` on a null `project_id`) becomes an `Except Unit`
result.  Coordinates are decimal literals on which the script never does
arithmetic (they are only stored, compared with `None`, and tested for
truthiness), so they are embedded exactly as integers scaled by 10^4:
the source literal `52.0024` is the integer `520024`, and Python's
`0.0` (falsy) is `0`.
-/

namespace OSNL

/-- Python `s.split(sep)` on character lists, for a non-empty separator:
scan left to right, emit the accumulated segment whenever `sep` is a prefix
of the remainder, otherwise consume one character.  `fuel` bounds recursion
and is always at least the length of the remaining input plus one. -/
def splitCh (sep : List Char) : Nat → List Char → List Char → List (List Char)
  | 0, cur, _ => [cur.reverse]
  | fuel + 1, cur, s =>
    if sep.isPrefixOf s then
      cur.reverse :: splitCh sep fuel [] (s.drop sep.length)
    else
      match s with
      | [] => [cur.reverse]
      | c :: t => splitCh sep fuel (c :: cur) t

/-- Python `s.split(sep)` (non-empty `sep`; the empty-separator case never
occurs in the script and is mapped to `[s]`). -/
def pySplit (s sep : String) : List String :=
  if sep = "" then [s]
  else (splitCh sep.data (s.data.length + 1) [] s.data).map String.mk

/-- Python `s.strip()`: drop leading and trailing whitespace. -/
def pyStrip (s : String) : String :=
  String.mk (((s.data.dropWhile Char.isWhitespace).reverse.dropWhile
    Char.isWhitespace).reverse)

/-- Python `s[:60]` (slice by code points). -/
def pyTake (n : Nat) (s : String) : String :=
  String.mk (s.data.take n)

/-- Python `sub in s` for a non-empty `sub`: the split on `sub` has at
least two segments. -/
def pyContains (s sub : String) : Prop :=
  2 ≤ (pySplit s sub).length

instance (s sub : String) : Decidable (pyContains s sub) :=
  inferInstanceAs (Decidable (2 ≤ (pySplit s sub).length))

/-- A JSON field value that the script reads as a string: either an actual
string or JSON `null` (Python `None`). -/
inductive JStr where
  | null : JStr
  | str (s : String) : JStr
deriving DecidableEq

/-- Association-list lookup, mirroring a Python dict read (`d[k]`,
`k in d`): first binding for the key wins (the embedding never creates a
duplicate key). -/
def alGet {κ α : Type} [DecidableEq κ] (key : κ) : List (κ × α) → Option α
  | [] => none
  | (k, v) :: t => if k = key then some v else alGet key t

/-- Association-list in-place value replacement (`d[k] = v` for a key that
is already present); leaves the list unchanged when the key is absent. -/
def alSet {κ α : Type} [DecidableEq κ] (key : κ) (x : α) :
    List (κ × α) → List (κ × α)
  | [] => []
  | (k, v) :: t => if k = key then (k, x) :: t else (k, v) :: alSet key x t

/-- Python dict assignment `d[k] = v`: overwrite in place when present,
append otherwise. -/
def alPut {κ α : Type} [DecidableEq κ] (key : κ) (x : α)
    (l : List (κ × α)) : List (κ × α) :=
  match alGet key l with
  | some _ => alSet key x l
  | none => l ++ [(key, x)]

/-- An entry of the `DUTCH_INSTITUTIONS` lookup table: canonical display
name and fixed coordinates. -/
structure InstInfo where
  name : String
  lat : Int
  lng : Int
deriving DecidableEq

/-- The static `DUTCH_INSTITUTIONS` table of `fetch_nwo_data.py`
(organisation-name pattern → canonical name and coordinates), in source
order. -/
def DUTCH_INSTITUTIONS : List (String × InstInfo) := [
  ("Technische Universiteit Delft", ⟨"Delft University of Technology", 520024, 43736⟩),
  ("TU Delft", ⟨"Delft University of Technology", 520024, 43736⟩),
  ("Delft University of Technology", ⟨"Delft University of Technology", 520024, 43736⟩),
  ("Technische Universiteit Eindhoven", ⟨"Eindhoven University of Technology", 514478, 54908⟩),
  ("TU Eindhoven", ⟨"Eindhoven University of Technology", 514478, 54908⟩),
  ("Eindhoven University of Technology", ⟨"Eindhoven University of Technology", 514478, 54908⟩),
  ("Universiteit Twente", ⟨"University of Twente", 522389, 68497⟩),
  ("University of Twente", ⟨"University of Twente", 522389, 68497⟩),
  ("Rijksuniversiteit Groningen", ⟨"University of Groningen", 532194, 65665⟩),
  ("University of Groningen", ⟨"University of Groningen", 532194, 65665⟩),
  ("Universiteit Utrecht", ⟨"Utrecht University", 520853, 51214⟩),
  ("Utrecht University", ⟨"Utrecht University", 520853, 51214⟩),
  ("Universiteit Leiden", ⟨"Leiden University", 521575, 44854⟩),
  ("Leiden University", ⟨"Leiden University", 521575, 44854⟩),
  ("Universiteit van Amsterdam", ⟨"University of Amsterdam", 523556, 49550⟩),
  ("University of Amsterdam", ⟨"University of Amsterdam", 523556, 49550⟩),
  ("UvA", ⟨"University of Amsterdam", 523556, 49550⟩),
  ("Vrije Universiteit Amsterdam", ⟨"Vrije Universiteit Amsterdam", 523340, 48659⟩),
  ("VU Amsterdam", ⟨"Vrije Universiteit Amsterdam", 523340, 48659⟩),
  ("Erasmus Universiteit Rotterdam", ⟨"Erasmus University Rotterdam", 519173, 45260⟩),
  ("Erasmus University Rotterdam", ⟨"Erasmus University Rotterdam", 519173, 45260⟩),
  ("Radboud Universiteit", ⟨"Radboud University Nijmegen", 518205, 58659⟩),
  ("Radboud University", ⟨"Radboud University Nijmegen", 518205, 58659⟩),
  ("Radboud University Nijmegen", ⟨"Radboud University Nijmegen", 518205, 58659⟩),
  ("Maastricht University", ⟨"Maastricht University", 508465, 56872⟩),
  ("Universiteit Maastricht", ⟨"Maastricht University", 508465, 56872⟩),
  ("Tilburg University", ⟨"Tilburg University", 515648, 50434⟩),
  ("Universiteit van Tilburg", ⟨"Tilburg University", 515648, 50434⟩),
  ("Wageningen University", ⟨"Wageningen University & Research", 519692, 56654⟩),
  ("Wageningen University & Research", ⟨"Wageningen University & Research", 519692, 56654⟩),
  ("WUR", ⟨"Wageningen University & Research", 519692, 56654⟩),
  ("Open Universiteit", ⟨"Open University of the Netherlands", 508882, 59808⟩),
  ("Open University", ⟨"Open University of the Netherlands", 508882, 59808⟩),
  ("Erasmus MC", ⟨"Erasmus MC", 519225, 44792⟩),
  ("LUMC", ⟨"Leiden University Medical Center", 521667, 44792⟩),
  ("Leiden University Medical Center", ⟨"Leiden University Medical Center", 521667, 44792⟩),
  ("UMC Utrecht", ⟨"University Medical Center Utrecht", 520875, 51786⟩),
  ("University Medical Center Utrecht", ⟨"University Medical Center Utrecht", 520875, 51786⟩),
  ("UMCG", ⟨"University Medical Center Groningen", 532217, 65756⟩),
  ("University Medical Center Groningen", ⟨"University Medical Center Groningen", 532217, 65756⟩),
  ("Radboudumc", ⟨"Radboud University Medical Center", 518425, 58528⟩),
  ("Radboud University Medical Center", ⟨"Radboud University Medical Center", 518425, 58528⟩),
  ("Amsterdam UMC", ⟨"Amsterdam University Medical Centers", 523340, 48659⟩),
  ("Amsterdam University Medical Centers", ⟨"Amsterdam University Medical Centers", 523340, 48659⟩),
  ("VUmc", ⟨"Amsterdam UMC Location Vrije Universiteit Amsterdam", 523340, 48617⟩),
  ("Maastricht UMC", ⟨"Maastricht University Medical Centre", 508442, 56997⟩),
  ("Maastricht University Medical Centre", ⟨"Maastricht University Medical Centre", 508442, 56997⟩),
  ("KNAW", ⟨"Royal Netherlands Academy of Arts and Sciences", 523702, 48952⟩),
  ("Koninklijke Nederlandse Akademie van Wetenschappen", ⟨"Royal Netherlands Academy of Arts and Sciences", 523702, 48952⟩),
  ("Royal Netherlands Academy of Arts and Sciences", ⟨"Royal Netherlands Academy of Arts and Sciences", 523702, 48952⟩),
  ("NWO", ⟨"Netherlands Organisation for Scientific Research", 520840, 51261⟩),
  ("SURF", ⟨"SURF", 520894, 51086⟩),
  ("SURF - Co√∂peratie SURF U.A.", ⟨"SURF", 520894, 51086⟩),
  ("Netherlands eScience Center", ⟨"Netherlands eScience Center", 523550, 49547⟩),
  ("DANS", ⟨"Data Archiving and Networked Services", 520840, 51261⟩),
  ("KB", ⟨"National Library of the Netherlands", 520799, 43276⟩),
  ("Koninklijke Bibliotheek", ⟨"National Library of the Netherlands", 520799, 43276⟩),
  ("National Library of the Netherlands", ⟨"National Library of the Netherlands", 520799, 43276⟩),
  ("Hogeschool Utrecht", ⟨"University of Applied Sciences Utrecht", 520840, 51750⟩),
  ("HU", ⟨"University of Applied Sciences Utrecht", 520840, 51750⟩),
  ("Hogeschool van Amsterdam", ⟨"Amsterdam University of Applied Sciences", 523590, 49088⟩),
  ("HvA", ⟨"Amsterdam University of Applied Sciences", 523590, 49088⟩),
  ("Hogeschool Rotterdam", ⟨"Rotterdam University of Applied Sciences", 519170, 44846⟩),
  ("Fontys", ⟨"Fontys University of Applied Sciences", 514512, 54823⟩),
  ("Fontys Hogescholen", ⟨"Fontys University of Applied Sciences", 514512, 54823⟩),
  ("Saxion", ⟨"Saxion University of Applied Sciences", 522215, 68937⟩),
  ("Hanzehogeschool", ⟨"Hanze University of Applied Sciences", 532119, 65827⟩),
  ("Hanze University of Applied Sciences", ⟨"Hanze University of Applied Sciences", 532119, 65827⟩)]

/-- `normalize_org_name`: `None` for a falsy (empty) input, otherwise the
first `"||"`-delimited segment, stripped. -/
def normalize_org_name (org : String) : Option String :=
  if org = "" then none
  else some (pyStrip ((pySplit org "||").headD ""))

/-- A raw project-member record; each field is `none` when the JSON key is
absent or its value is `null` (both are read identically by the script). -/
structure Member where
  ror : Option String
  rorId : Option String
  institution_ror : Option String
  organisation : Option String
deriving DecidableEq

/-- Python `a or b` on string-or-`None` values: `b` when `a` is falsy
(`None` or the empty string). -/
def pyOrStr : Option String → Option String → Option String
  | some s, b => if s = "" then b else some s
  | none, b => b

/-- The `ror` / `rorId` / `institution_ror` alias chain
(`member.get("ror") or member.get("rorId") or member.get("institution_ror")`). -/
def rorOf (m : Member) : Option String :=
  pyOrStr m.ror (pyOrStr m.rorId m.institution_ror)

/-- Result of resolving one member: a ROR-derived key or an entry of the
static organisation table. -/
inductive MemberRes where
  | ror (id : String) : MemberRes
  | org (info : InstInfo) : MemberRes
deriving DecidableEq

/-- Fallback branch of member resolution: look the normalized organisation
name up in the static table (truthiness check first). -/
def orgFallback (m : Member) : Option MemberRes :=
  match normalize_org_name (m.organisation.getD "") with
  | none => none
  | some base =>
    if base = "" then none
    else (alGet base DUTCH_INSTITUTIONS).map MemberRes.org

/-- Member identity resolution (lines 173–188 of the script): prefer the
ROR alias chain when its value is truthy, not the `"-"` sentinel and
contains `"ror.org/"`; otherwise fall back to the organisation-name
table. -/
def resolveMember (m : Member) : Option MemberRes :=
  match rorOf m with
  | some r =>
    if r ≠ "" ∧ r ≠ "-" ∧ pyContains r "ror.org/" then
      some (MemberRes.ror ((pySplit r "ror.org/").getLastD ""))
    else orgFallback m
  | none => orgFallback m

/-- String form `"<tag>:<value>"` of an institution key
(`f"{key[0]}:{key[1]}"`). -/
def keyStrOf : MemberRes → String
  | MemberRes.ror i => "ror:" ++ i
  | MemberRes.org info => "org:" ++ info.name

/-- A fetched project record (the fields `extract_collaborations` reads).
Every field distinguishes a present-but-`null` JSON value from an absent
key — `none` is an absent key, `some JStr.null` (resp. `some none` for
the member lists) is a key present with value `null` — because the
script treats the two differently: `.strip()` (line 152) and the `[:60]`
slice (line 161) raise on `None`, a `None` funding scheme flows into the
counters and can break the final `sorted(funding_schemes)` (line 207),
and a present-`null` `project_members` suppresses the `projectMembers`
fallback (line 167). -/
structure Project where
  grant_id : Option JStr
  project_id : Option JStr
  title : Option JStr
  funding_scheme : Option JStr
  project_members : Option (Option (List Member))
  projectMembers : Option (Option (List Member))
deriving DecidableEq

/-- The per-project info dict
`{"grant_id": identifier, "title": title[:60], "funding_scheme": scheme}`. -/
structure ProjInfo where
  grant_id : String
  title : String
  funding_scheme : Option String
deriving DecidableEq

/-- `project.get("project_members", project.get("projectMembers", []))`
followed by the `if members:` truthiness guard (line 171): a
present-`null` value suppresses the `projectMembers` fallback and, being
falsy, behaves like an empty member list; the effective member list is
empty whenever the retrieved value is `None`. -/
def membersOf (p : Project) : List Member :=
  (p.project_members.getD (p.projectMembers.getD (some []))).getD []

/-- The `else project_id.strip()` arm: Python raises when the stored
`project_id` value is `null`. -/
def fallbackId (p : Project) : Except Unit String :=
  match p.project_id.getD (JStr.str "") with
  | JStr.null => Except.error ()
  | JStr.str s => Except.ok (pyStrip s)

/-- The identifier computation (line 152):
`grant_id.strip() if grant_id and grant_id.strip() else project_id.strip()`.
The error case is Python's `AttributeError` when `project_id` is `null`
and gets `.strip()` called on it. -/
def identifierOf (p : Project) : Except Unit String :=
  match p.grant_id.getD (JStr.str "") with
  | JStr.null => fallbackId p
  | JStr.str s =>
    if s ≠ "" ∧ pyStrip s ≠ "" then Except.ok (pyStrip s) else fallbackId p

/-- Add to a list acting as a Python `set` (membership-guarded append;
insertion order is one canonical iteration order of the set). -/
def insertNew {α : Type} [DecidableEq α] (l : List α) (k : α) : List α :=
  if k ∈ l then l else l ++ [k]

/-- One step of the member loop (lines 172–188): resolve the member and
add its key string to the project's key set; on the organisation-table
path also record `org_name_institutions[name] = info`. -/
def stepMember : List String × List (String × InstInfo) → Member →
    List String × List (String × InstInfo)
  | (keys, infos), m =>
    match resolveMember m with
    | none => (keys, infos)
    | some (MemberRes.ror i) => (insertNew keys ("ror:" ++ i), infos)
    | some (MemberRes.org info) =>
      (insertNew keys ("org:" ++ info.name), alPut info.name info infos)

/-- The key set contributed by a member list, as a list in first-seen
order (the keys component of the member loop). -/
def keysOfMembers (ms : List Member) : List String :=
  (ms.foldl stepMember ([], [])).1

/-- Code-point lexicographic comparison of character lists (Python's
string comparison), as an executable Boolean. -/
def lexLe : List Char → List Char → Bool
  | [], _ => true
  | _ :: _, [] => false
  | a :: s, b :: t =>
    if a.toNat < b.toNat then true
    else if b.toNat < a.toNat then false
    else lexLe s t

/-- Python `a <= b` on strings: code-point lexicographic order. -/
def strLe (a b : String) : Prop :=
  lexLe a.data b.data = true

instance (a b : String) : Decidable (strLe a b) :=
  inferInstanceAs (Decidable (lexLe a.data b.data = true))

/-- The strict companion of `strLe`. -/
def strLt (a b : String) : Prop :=
  strLe a b ∧ a ≠ b

lemma lexLe_total : ∀ s t : List Char, lexLe s t = true ∨ lexLe t s = true := by
  intro s
  induction s with
  | nil => intro t; left; rfl
  | cons a s ih =>
    intro t
    cases t with
    | nil => right; rfl
    | cons b t2 =>
      by_cases h1 : a.toNat < b.toNat
      · left; simp [lexLe, h1]
      · by_cases h2 : b.toNat < a.toNat
        · right; simp [lexLe, h2]
        · rcases ih t2 with h | h
          · left; simp [lexLe, h1, h2, h]
          · right; simp [lexLe, h1, h2, h]

lemma lexLe_trans : ∀ s t u : List Char,
    lexLe s t = true → lexLe t u = true → lexLe s u = true := by
  intro s
  induction s with
  | nil => intro t u h1 h2; rfl
  | cons a s ih =>
    intro t u hst htu
    cases t with
    | nil => simp [lexLe] at hst
    | cons b t2 =>
      cases u with
      | nil => simp [lexLe] at htu
      | cons c u2 =>
        simp only [lexLe] at hst htu ⊢
        by_cases h1 : a.toNat < b.toNat
        · by_cases h2 : b.toNat < c.toNat
          · simp [Nat.lt_trans h1 h2]
          · by_cases h3 : c.toNat < b.toNat
            · simp [h2, h3] at htu
            · have hbc : b.toNat = c.toNat := by omega
              simp [show a.toNat < c.toNat by omega]
        · by_cases h4 : b.toNat < a.toNat
          · simp [h1, h4] at hst
          · have hba : a.toNat = b.toNat := by omega
            by_cases h2 : b.toNat < c.toNat
            · simp [show a.toNat < c.toNat by omega]
            · by_cases h3 : c.toNat < b.toNat
              · simp [h2, h3] at htu
              · simp only [h1, if_false, h4, if_false] at hst
                simp only [h2, if_false, h3, if_false] at htu
                simp [show ¬ a.toNat < c.toNat by omega,
                  show ¬ c.toNat < a.toNat by omega, ih t2 u2 hst htu]

lemma lexLe_antisymm : ∀ s t : List Char,
    lexLe s t = true → lexLe t s = true → s = t := by
  intro s
  induction s with
  | nil =>
    intro t h1 h2
    cases t with
    | nil => rfl
    | cons b t2 => simp [lexLe] at h2
  | cons a s ih =>
    intro t hst hts
    cases t with
    | nil => simp [lexLe] at hst
    | cons b t2 =>
      simp only [lexLe] at hst hts
      by_cases h1 : a.toNat < b.toNat
      · simp [show ¬ b.toNat < a.toNat by omega, h1] at hts
      · by_cases h2 : b.toNat < a.toNat
        · simp [h1, h2] at hst
        · have hab : a = b := Char.ext (UInt32.ext (by
            show a.toNat = b.toNat
            omega))
          simp only [h1, if_false, h2, if_false] at hst hts
          rw [hab, ih t2 hst hts]

lemma string_eq_of_data {a b : String} (h : a.data = b.data) : a = b := by
  cases a
  cases b
  simp_all

instance : IsTotal String strLe :=
  ⟨fun a b => lexLe_total a.data b.data⟩

instance : IsTrans String strLe :=
  ⟨fun a b c => lexLe_trans a.data b.data c.data⟩

instance : IsAntisymm String strLe :=
  ⟨fun a b h1 h2 => string_eq_of_data (lexLe_antisymm a.data b.data h1 h2)⟩

lemma strLt_asymm {a b : String} (h : strLt a b) : ¬ strLt b a :=
  fun h2 => h.2 (antisymm h.1 h2.1)

lemma strLt_or_strLt {a b : String} (hab : a ≠ b) :
    strLt a b ∨ strLt b a := by
  rcases lexLe_total a.data b.data with h | h
  · exact Or.inl ⟨h, hab⟩
  · exact Or.inr ⟨h, hab.symm⟩

/-- Lexicographic sort of key strings (`sorted([...])`, code-point
order), realized by Mathlib's stable insertion sort. -/
def sortStrings (l : List String) : List String :=
  l.insertionSort strLe

/-- `itertools.combinations(l, 2)`: all ordered-position pairs. -/
def pairsOf {α : Type} : List α → List (α × α)
  | [] => []
  | a :: t => t.map (fun b => (a, b)) ++ pairsOf t

/-- The per-funding-scheme counter table for collaboration pairs
(`defaultdict(lambda: defaultdict(int))`). -/
abbrev CollabTable :=
  List ((String × String) × List (Option String × Nat))

/-- `collaboration_pairs[pair][funding_scheme] += 1`; the scheme key is
`None` when the record's `funding_scheme` was present-`null`. -/
def bumpPair (c : CollabTable) (pr : String × String)
    (scheme : Option String) : CollabTable :=
  match alGet pr c with
  | none => c ++ [(pr, [(scheme, 1)])]
  | some sc =>
    match alGet scheme sc with
    | none => alSet pr (sc ++ [(scheme, 1)]) c
    | some n => alSet pr (alSet scheme (n + 1) sc) c

/-- The count stored for `scheme` on pair `pr` (0 when absent, matching
the `defaultdict(int)` default). -/
def pairCount (c : CollabTable) (pr : String × String)
    (scheme : Option String) : Nat :=
  (alGet scheme ((alGet pr c).getD [])).getD 0

/-- The institution → project-list index (`institution_projects`). -/
abbrev InstIndex := List (String × List ProjInfo)

/-- Lines 191–194: store `info` for `key`, unless a project with the same
`grant_id` is already recorded for that institution. -/
def instUpdate (idx : InstIndex) (info : ProjInfo) (key : String) :
    InstIndex :=
  match alGet key idx with
  | none => idx ++ [(key, [info])]
  | some l =>
    if l.any (fun q => q.grant_id = info.grant_id) then idx
    else alSet key (l ++ [info]) idx

/-- `project.get("funding_scheme", "Unknown")`: `"Unknown"` only when
the key is absent; a present-`null` value is Python `None`, which the
script carries into the scheme set and the pair counters. -/
def schemeOf (p : Project) : Option String :=
  match p.funding_scheme with
  | none => some "Unknown"
  | some JStr.null => none
  | some (JStr.str s) => some s

/-- `project.get("title", "Untitled")` (line 149): `none` is Python
`None` (key present with value `null`), on which the slice
`project_title[:60]` at line 161 raises `TypeError`. -/
def titleVal (p : Project) : Option String :=
  match p.title with
  | none => some "Untitled"
  | some JStr.null => none
  | some (JStr.str s) => some s

/-- The `{"grant_id": identifier, "title": title[:60], "funding_scheme":
scheme}` dict built for an accepted project (line 161), given the
non-`None` title string `tt` (the `None` case raises before this dict is
built — see `processProjectWith`). -/
def projInfoOf (p : Project) (i tt : String) : ProjInfo :=
  ⟨i, pyTake 60 tt, schemeOf p⟩

/-- The whole mutable state of `extract_collaborations`. -/
structure AggState where
  institution_projects : InstIndex
  collaboration_pairs : CollabTable
  funding_schemes : List (Option String)
  all_projects_list : List ProjInfo
  org_name_institutions : List (String × InstInfo)
deriving DecidableEq

/-- The key set of one project as computed inside the loop (fed with the
current `org_name_institutions` dict, whose contents do not influence the
keys — see `stKeys_eq`). -/
def stKeys (st : AggState) (p : Project) : List String :=
  ((membersOf p).foldl stepMember ([], st.org_name_institutions)).1

/-- The `org_name_institutions` dict after one project's member loop. -/
def stInfos (st : AggState) (p : Project) : List (String × InstInfo) :=
  ((membersOf p).foldl stepMember ([], st.org_name_institutions)).2

/-- The state after an accepted project (identifier non-empty),
parameterized by `order`, the iteration order of the Python `set`
`institution_keys` in the index-update loop (line 191) — the only place
where set iteration order is observable. -/
def acceptProject (order : List String → List String) (st : AggState)
    (p : Project) (i tt : String) : AggState where
  institution_projects :=
    (order (stKeys st p)).foldl
      (fun idx k => instUpdate idx (projInfoOf p i tt) k)
      st.institution_projects
  collaboration_pairs :=
    if 2 ≤ (stKeys st p).length then
      (pairsOf (sortStrings (stKeys st p))).foldl
        (fun c pr => bumpPair c pr (schemeOf p)) st.collaboration_pairs
    else st.collaboration_pairs
  funding_schemes := insertNew st.funding_schemes (schemeOf p)
  all_projects_list := st.all_projects_list ++ [projInfoOf p i tt]
  org_name_institutions := stInfos st p

def processProjectWith (order : List String → List String) (st : AggState)
    (p : Project) : Except Unit AggState :=
  match identifierOf p with
  | Except.error e => Except.error e
  | Except.ok i =>
    if i = "" then Except.ok st
    else
      match titleVal p with
      | none => Except.error ()
      | some tt => Except.ok (acceptProject order st p i tt)

/-- The canonical loop body (first-seen key iteration order). -/
def processProject : AggState → Project → Except Unit AggState :=
  processProjectWith (fun l => l)

/-- `sorted(funding_schemes)` at the `return` (line 207): Python raises
`TypeError` when sorting forces a comparison involving `None` — that is,
whenever the set holds `None` next to at least one other element (a
string, necessarily, since a set holds one `None` at most); an
all-string set sorts by code point and a lone `None` needs no
comparison. -/
def pySortSchemes (l : List (Option String)) :
    Except Unit (List (Option String)) :=
  if l.any (fun o => o.isNone) then
    if l.length ≤ 1 then Except.ok l else Except.error ()
  else Except.ok ((sortStrings (l.filterMap (fun o => o))).map some)

/-- `extract_collaborations`, parameterized by the set iteration order. -/
def extract_collaborationsWith (order : List String → List String)
    (ps : List Project) : Except Unit AggState :=
  match ps.foldlM (processProjectWith order) ⟨[], [], [], [], []⟩ with
  | Except.error e => Except.error e
  | Except.ok st =>
    match pySortSchemes st.funding_schemes with
    | Except.error e => Except.error e
    | Except.ok fs => Except.ok { st with funding_schemes := fs }

/-- `extract_collaborations` (lines 134–207); the returned
`funding_schemes` component is the sorted set, as in the `return`
statement — which itself can raise when the scheme set mixes `None`
with strings. -/
def extract_collaborations (ps : List Project) : Except Unit AggState :=
  extract_collaborationsWith (fun l => l) ps

/-- A resolved institution-metadata record, a value of `all_institutions`
in `main` (built from the ROR API or from the static table): coordinates
may be unresolved (`None`). -/
structure Institution where
  name : String
  lat : Option Int
  lng : Option Int
  country : String
  country_code : String
  ror_id : Option String
deriving DecidableEq

/-- An element of the output `institutions` array (lines 325–334). -/
structure OutInst where
  name : String
  lat : Int
  lng : Int
  count : Nat
  projects : List ProjInfo
  country : String
  country_code : String
  ror_id : Option String
deriving DecidableEq

/-- One iteration of an appending output loop
(`for ...: if ...: out.append(x)`). -/
def emitStep {α β : Type} (f : α → Option β) (acc : List β) (e : α) :
    List β :=
  match f e with
  | some r => acc ++ [r]
  | none => acc

/-- One entry of the institutions loop (lines 321–334): emit a record iff
the key is in `all_institutions` and both coordinates are not `None`. -/
def instRecordOf (allInst : List (String × Institution))
    (e : String × List ProjInfo) : Option OutInst :=
  match alGet e.1 allInst with
  | none => none
  | some inst =>
    match inst.lat, inst.lng with
    | some la, some lo =>
      some ⟨inst.name, la, lo, e.2.length, e.2, inst.country,
        inst.country_code, inst.ror_id⟩
    | some _, none => none
    | none, _ => none

/-- The output `institutions` array: the loop over
`institution_projects.items()` appending the surviving records. -/
def buildInstitutions (idx : InstIndex)
    (allInst : List (String × Institution)) : List OutInst :=
  idx.foldl (emitStep (instRecordOf allInst)) []

/-- `sum(scheme_counts.values())`. -/
def sumVals (l : List (Option String × Nat)) : Nat :=
  l.foldl (fun a e => a + e.2) 0

/-- The ranking total of one collaboration-table entry
(`sum(x[1].values())`). -/
def totalOf (e : (String × String) × List (Option String × Nat)) : Nat :=
  sumVals e.2

/-- The ranking relation: descending by total count (ties keep the
original, insertion, order under a stable sort). -/
def totGe (a b : (String × String) × List (Option String × Nat)) : Prop :=
  totalOf b ≤ totalOf a

instance (a b : (String × String) × List (Option String × Nat)) :
    Decidable (totGe a b) :=
  inferInstanceAs (Decidable (totalOf b ≤ totalOf a))

/-- `sorted(collaboration_pairs.items(), key=lambda x: -sum(x[1].values()))`:
a stable sort, descending by total count. -/
def sortPairsDesc (c : CollabTable) : CollabTable :=
  c.insertionSort totGe

/-- A link endpoint `{lat, lng, name}`. -/
structure Endpoint where
  lat : Int
  lng : Int
  name : String
deriving DecidableEq

/-- An element of the output `links` array (lines 344–349). -/
structure OutLink where
  source : Endpoint
  target : Endpoint
  count : Nat
  scheme_counts : List (Option String × Nat)
deriving DecidableEq

/-- Python float truthiness of an optional coordinate: `None` and `0.0`
are falsy. -/
def truthyCoord : Option Int → Bool
  | none => false
  | some x => x ≠ 0

/-- The link built from one ranked collaboration entry (lines 340–349):
requires both keys in `all_institutions` and
`all([lat1, lng1, lat2, lng2])` — a truthiness test, so a coordinate that
is `None` or `0.0` drops the link. -/
def linkOf (allInst : List (String × Institution))
    (e : (String × String) × List (Option String × Nat)) : Option OutLink :=
  match alGet e.1.1 allInst, alGet e.1.2 allInst with
  | some i1, some i2 =>
    if truthyCoord i1.lat ∧ truthyCoord i1.lng ∧
        truthyCoord i2.lat ∧ truthyCoord i2.lng then
      match i1.lat, i1.lng, i2.lat, i2.lng with
      | some la1, some lo1, some la2, some lo2 =>
        some ⟨⟨la1, lo1, i1.name⟩, ⟨la2, lo2, i2.name⟩, sumVals e.2, e.2⟩
      | _, _, _, _ => none
    else none
  | none, _ => none
  | some _, none => none

/-- The output `links` array (lines 336–349): rank by descending total,
truncate to 50, then the loop appending each surviving link. -/
def buildLinks (allInst : List (String × Institution)) (c : CollabTable) :
    List OutLink :=
  ((sortPairsDesc c).take 50).foldl (emitStep (linkOf allInst)) []

/-- The distinct institution-key strings of one project, in first-seen
member order (a canonical listing of the Python set `institution_keys`). -/
def projectKeys (p : Project) : List String :=
  keysOfMembers (membersOf p)

/-- The collaboration pairs incremented for one project: combinations of
the sorted key list when the key set has at least two elements. -/
def projectPairs (p : Project) : List (String × String) :=
  if 2 ≤ (projectKeys p).length then pairsOf (sortStrings (projectKeys p))
  else []

/-- The keys component of one member-loop step, in isolation. -/
def keyStep (ks : List String) (m : Member) : List String :=
  match resolveMember m with
  | none => ks
  | some r => insertNew ks (keyStrOf r)

lemma stepMember_fst (ms : List Member) :
    ∀ (ks : List String) (is : List (String × InstInfo)),
      (ms.foldl stepMember (ks, is)).1 = ms.foldl keyStep ks := by
  induction ms with
  | nil => intro ks is; rfl
  | cons m t ih =>
    intro ks is
    cases h : resolveMember m with
    | none => simp only [List.foldl_cons, stepMember, keyStep, h]; exact ih _ _
    | some r =>
      cases r with
      | ror i => simp only [List.foldl_cons, stepMember, keyStep, h, keyStrOf]; exact ih _ _
      | org info => simp only [List.foldl_cons, stepMember, keyStep, h, keyStrOf]; exact ih _ _

lemma insertNew_nodup {ks : List String} {k : String} (h : ks.Nodup) :
    (insertNew ks k).Nodup := by
  unfold insertNew
  split
  · exact h
  · rename_i hk
    simpa [List.nodup_append] using ⟨h, hk⟩

lemma mem_insertNew {ks : List String} {k a : String} :
    a ∈ insertNew ks k ↔ a ∈ ks ∨ a = k := by
  unfold insertNew
  split
  · rename_i hk
    constructor
    · exact fun h => Or.inl h
    · rintro (h | rfl)
      · exact h
      · exact hk
  · simp

lemma keyStep_fold_nodup (ms : List Member) :
    ∀ {ks : List String}, ks.Nodup → (ms.foldl keyStep ks).Nodup := by
  induction ms with
  | nil => intro ks h; exact h
  | cons m t ih =>
    intro ks h
    simp only [List.foldl_cons]
    apply ih
    unfold keyStep
    cases resolveMember m with
    | none => exact h
    | some r => exact insertNew_nodup h

lemma mem_keyStep_fold (ms : List Member) :
    ∀ {ks : List String} {a : String},
      a ∈ ms.foldl keyStep ks ↔
        a ∈ ks ∨ a ∈ ms.filterMap (fun m => (resolveMember m).map keyStrOf) := by
  induction ms with
  | nil => intro ks a; simp
  | cons m t ih =>
    intro ks a
    simp only [List.foldl_cons, List.filterMap_cons]
    cases h : resolveMember m with
    | none => simpa [keyStep, h] using ih
    | some r =>
      rw [show keyStep ks m = insertNew ks (keyStrOf r) by simp [keyStep, h]]
      rw [ih, mem_insertNew]
      simp only [Option.map_some', List.mem_cons]
      tauto

lemma projectKeys_nodup (p : Project) : (projectKeys p).Nodup := by
  have h := stepMember_fst (membersOf p) [] []
  unfold projectKeys keysOfMembers
  rw [h]
  exact keyStep_fold_nodup _ List.nodup_nil

/-- Membership in a project's key list is determined by its members'
resolutions alone. -/
lemma mem_projectKeys (p : Project) (a : String) :
    a ∈ projectKeys p ↔
      a ∈ (membersOf p).filterMap (fun m => (resolveMember m).map keyStrOf) := by
  unfold projectKeys keysOfMembers
  rw [stepMember_fst (membersOf p) [] [], mem_keyStep_fold]
  simp

lemma sortStrings_perm (l : List String) : List.Perm (sortStrings l) l :=
  List.perm_insertionSort _ l

lemma sortStrings_sorted (l : List String) :
    (sortStrings l).Sorted strLe :=
  List.sorted_insertionSort _ l

lemma sortStrings_nodup {l : List String} (h : l.Nodup) :
    (sortStrings l).Nodup :=
  ((sortStrings_perm l).nodup_iff).mpr h

lemma sortStrings_sorted_lt {l : List String} (h : l.Nodup) :
    (sortStrings l).Sorted strLt :=
  (sortStrings_sorted l).imp₂ (fun _ _ h1 h2 => ⟨h1, h2⟩)
    (sortStrings_nodup h)

lemma sortStrings_eq_of_perm {l1 l2 : List String} (h : List.Perm l1 l2) :
    sortStrings l1 = sortStrings l2 :=
  List.eq_of_perm_of_sorted
    (((sortStrings_perm l1).trans h).trans (sortStrings_perm l2).symm)
    (sortStrings_sorted l1) (sortStrings_sorted l2)

lemma pairsOf_length {α : Type} (l : List α) :
    (pairsOf l).length = Nat.choose l.length 2 := by
  induction l with
  | nil => rfl
  | cons a t ih =>
    simp only [pairsOf, List.length_append, List.length_map, ih,
      List.length_cons, Nat.choose_succ_succ, Nat.choose_one_right]

lemma pairsOf_mem_lt {α : Type} {r : α → α → Prop} {l : List α}
    (h : l.Sorted r) : ∀ pr ∈ pairsOf l, r pr.1 pr.2 := by
  induction l with
  | nil => intro pr hpr; simp [pairsOf] at hpr
  | cons a t ih =>
    rw [List.sorted_cons] at h
    intro pr hpr
    rcases List.mem_append.mp hpr with hm | hm
    · rcases List.mem_map.mp hm with ⟨b, hb, rfl⟩
      exact h.1 b hb
    · exact ih h.2 pr hm

lemma mem_pairsOf {α : Type} {r : α → α → Prop}
    (hasym : ∀ {x y : α}, r x y → ¬ r y x) {l : List α}
    (h : l.Sorted r) {a b : α} (ha : a ∈ l) (hb : b ∈ l)
    (hab : r a b) : (a, b) ∈ pairsOf l := by
  induction l with
  | nil => simp at ha
  | cons c t ih =>
    rw [List.sorted_cons] at h
    rcases List.mem_cons.mp ha with rfl | ha2
    · have hbt : b ∈ t := by
        rcases List.mem_cons.mp hb with rfl | hb2
        · exact absurd hab (hasym hab)
        · exact hb2
      exact List.mem_append.mpr (Or.inl (List.mem_map.mpr ⟨b, hbt, rfl⟩))
    · have hbt : b ∈ t := by
        rcases List.mem_cons.mp hb with rfl | hb2
        · exact absurd hab (hasym (h.1 a ha2))
        · exact hb2
      exact List.mem_append.mpr (Or.inr (ih h.2 ha2 hbt))

lemma alGet_append {κ α : Type} [DecidableEq κ] (k : κ)
    (l1 l2 : List (κ × α)) :
    alGet k (l1 ++ l2) =
      match alGet k l1 with
      | some v => some v
      | none => alGet k l2 := by
  induction l1 with
  | nil => simp [alGet]
  | cons e t ih =>
    by_cases h : e.1 = k
    · simp [alGet, h]
    · simpa [alGet, h] using ih

lemma alGet_alSet_self {κ α : Type} [DecidableEq κ] {k : κ} (x : α)
    {l : List (κ × α)} (h : (alGet k l).isSome) :
    alGet k (alSet k x l) = some x := by
  induction l with
  | nil => simp [alGet] at h
  | cons e t ih =>
    by_cases he : e.1 = k
    · cases e; subst he; simp_all [alGet, alSet]
    · cases e
      simp only [alGet, alSet, he, if_neg] at h ⊢
      exact ih h

lemma alGet_alSet_ne {κ α : Type} [DecidableEq κ] {k key : κ} (x : α)
    (l : List (κ × α)) (h : k ≠ key) :
    alGet k (alSet key x l) = alGet k l := by
  induction l with
  | nil => rfl
  | cons e t ih =>
    cases e with
    | mk k1 v =>
      simp only [alGet, alSet]
      by_cases h1 : k1 = key
      · subst h1
        have hk : k1 ≠ k := fun hk => h (hk ▸ rfl)
        simp [alGet, hk]
      · simp only [h1, if_false, alGet]
        by_cases h2 : k1 = k
        · simp [h2]
        · simp [h2, ih]

/-- What `instUpdate` does to the stored list of the updated key. -/
def updF (info : ProjInfo) : Option (List ProjInfo) → List ProjInfo
  | none => [info]
  | some l =>
    if l.any (fun q => q.grant_id = info.grant_id) then l else l ++ [info]

lemma alGet_instUpdate_self (idx : InstIndex) (info : ProjInfo)
    (key : String) :
    alGet key (instUpdate idx info key) = some (updF info (alGet key idx)) := by
  unfold instUpdate
  cases h : alGet key idx with
  | none =>
    rw [alGet_append]
    simp [h, updF, alGet]
  | some l =>
    cases ha : l.any (fun q => q.grant_id = info.grant_id) with
    | true => simp [updF, ha, h]
    | false =>
      simp only [updF, ha, Bool.false_eq_true, if_false]
      exact alGet_alSet_self _ (by simp [h])

lemma alGet_instUpdate_ne (idx : InstIndex) (info : ProjInfo)
    {k key : String} (h : k ≠ key) :
    alGet k (instUpdate idx info key) = alGet k idx := by
  unfold instUpdate
  cases hg : alGet key idx with
  | none =>
    rw [alGet_append]
    cases hk : alGet k idx with
    | none => simp [alGet, Ne.symm h]
    | some l => simp
  | some l =>
    by_cases ha : l.any (fun q => q.grant_id = info.grant_id)
    · simp [ha]
    · simp only [ha, if_false]
      exact alGet_alSet_ne _ _ h

lemma updF_idem (info : ProjInfo) (o : Option (List ProjInfo)) :
    updF info (some (updF info o)) = updF info o := by
  cases o with
  | none => simp [updF]
  | some l =>
    by_cases ha : l.any (fun q => q.grant_id = info.grant_id)
    · simp [updF, ha]
    · simp [updF, ha]

/-- Closed form for the index after the per-key update loop: each key in
the iteration list gets `updF` applied once (re-updates are absorbed),
other keys are untouched. -/
lemma alGet_updateIndex (info : ProjInfo) (keys : List String) :
    ∀ (idx : InstIndex) (k : String),
      alGet k (keys.foldl (fun idx2 k2 => instUpdate idx2 info k2) idx) =
        if k ∈ keys then some (updF info (alGet k idx)) else alGet k idx := by
  induction keys with
  | nil => intro idx k; simp
  | cons k2 rest ih =>
    intro idx k
    simp only [List.foldl_cons]
    rw [ih]
    by_cases hk : k = k2
    · subst hk
      rw [alGet_instUpdate_self]
      by_cases hr : k ∈ rest <;> simp [hr, updF_idem]
    · rw [alGet_instUpdate_ne _ _ hk]
      simp [List.mem_cons, hk]

/-- An append-style loop (`for`: `if cond: out.append(x)`) is a
`filterMap`. -/
lemma foldl_emit_eq_filterMap {α β : Type} (f : α → Option β)
    (l : List α) :
    ∀ acc : List β,
      l.foldl (emitStep f) acc = acc ++ l.filterMap f := by
  induction l with
  | nil => intro acc; simp
  | cons e t ih =>
    intro acc
    simp only [List.foldl_cons, List.filterMap_cons]
    cases he : f e with
    | none => simp [emitStep, he, ih]
    | some r => simp [emitStep, he, ih]

/-- The key list computed inside the loop does not depend on the incoming
`org_name_institutions` dict: it is the project's canonical key list. -/
lemma stKeys_eq (st : AggState) (p : Project) :
    stKeys st p = projectKeys p := by
  unfold stKeys projectKeys keysOfMembers
  rw [stepMember_fst, stepMember_fst]

lemma keysOfMembers_nodup (ms : List Member) : (keysOfMembers ms).Nodup := by
  unfold keysOfMembers
  rw [stepMember_fst]
  exact keyStep_fold_nodup _ List.nodup_nil

lemma mem_keysOfMembers (ms : List Member) (a : String) :
    a ∈ keysOfMembers ms ↔
      a ∈ ms.filterMap (fun m => (resolveMember m).map keyStrOf) := by
  unfold keysOfMembers
  rw [stepMember_fst, mem_keyStep_fold]
  simp

lemma two_le_length_of_mem {α : Type} {l : List α} {a b : α}
    (ha : a ∈ l) (hb : b ∈ l) (hab : a ≠ b) : 2 ≤ l.length := by
  match l with
  | [] => simp at ha
  | [x] =>
    simp only [List.mem_singleton] at ha hb
    exact absurd (ha.trans hb.symm) hab
  | x :: y :: t => simp only [List.length_cons]; omega

/-- Canonicalization of an unordered pair by sorting its two key strings
(the effect of `sorted` before `combinations`). -/
def sortPair (a b : String) : String × String :=
  if strLe a b then (a, b) else (b, a)

lemma alGet_append_of_none {κ α : Type} [DecidableEq κ] {k : κ}
    {l1 : List (κ × α)} (l2 : List (κ × α)) (h : alGet k l1 = none) :
    alGet k (l1 ++ l2) = alGet k l2 := by
  rw [alGet_append]
  simp [h]

/-- `bumpPair` adds exactly 1 to the targeted scheme counter. -/
lemma pairCount_bumpPair (c : CollabTable) (pr : String × String)
    (s : Option String) :
    pairCount (bumpPair c pr s) pr s = pairCount c pr s + 1 := by
  unfold pairCount bumpPair
  cases hp : alGet pr c with
  | none =>
    show (alGet s ((alGet pr (c ++ [(pr, [(s, 1)])])).getD [])).getD 0 = 0 + 1
    rw [alGet_append_of_none _ hp]
    simp [alGet]
  | some sc =>
    show (alGet s ((alGet pr (match alGet s sc with
        | none => alSet pr (sc ++ [(s, 1)]) c
        | some n => alSet pr (alSet s (n + 1) sc) c)).getD [])).getD 0
      = (alGet s sc).getD 0 + 1
    cases hs : alGet s sc with
    | none =>
      show (alGet s ((alGet pr (alSet pr (sc ++ [(s, 1)]) c)).getD [])).getD 0
        = 0 + 1
      rw [alGet_alSet_self (sc ++ [(s, 1)]) (by simp [hp])]
      show (alGet s (sc ++ [(s, 1)])).getD 0 = 0 + 1
      rw [alGet_append_of_none _ hs]
      simp [alGet]
    | some n =>
      show (alGet s ((alGet pr (alSet pr (alSet s (n + 1) sc) c)).getD [])).getD 0
        = n + 1
      rw [alGet_alSet_self (alSet s (n + 1) sc) (by simp [hp])]
      show (alGet s (alSet s (n + 1) sc)).getD 0 = n + 1
      rw [alGet_alSet_self (n + 1) (by simp [hs])]
      rfl

/-- For an accepted project whose title is not present-`null`,
`processProject` succeeds and its collaboration table is the fold of the
project's pair increments. -/
lemma processProject_accept (st : AggState) (p : Project) (i tt : String)
    (h1 : identifierOf p = Except.ok i) (h2 : i ≠ "")
    (h3 : titleVal p = some tt) :
    processProject st p =
      Except.ok (acceptProject (fun l => l) st p i tt) := by
  unfold processProject processProjectWith
  rw [h1]
  show (if i = "" then Except.ok st
    else match titleVal p with
      | none => Except.error ()
      | some tt2 => Except.ok (acceptProject (fun l => l) st p i tt2)) = _
  rw [if_neg h2, h3]

lemma acceptProject_collab (order : List String → List String)
    (st : AggState) (p : Project) (i tt : String) :
    (acceptProject order st p i tt).collaboration_pairs =
      (projectPairs p).foldl (fun c pr => bumpPair c pr (schemeOf p))
        st.collaboration_pairs := by
  show (if 2 ≤ (stKeys st p).length then _ else _) = _
  rw [stKeys_eq]
  unfold projectPairs
  by_cases hg : 2 ≤ (projectKeys p).length
  · rw [if_pos hg, if_pos hg]
  · rw [if_neg hg, if_neg hg]
    rfl

/-- Claim C1 (amended): for every project with a usable identifier
whose title field is not present-`null`, the aggregator performs exactly
C(k,2) pairwise collaboration increments, where k is the number of
distinct institution keys resolved from its members after deduplication;
if k < 2 it performs zero increments, each incremented pair consists of
two distinct keys, and each increment adds exactly 1 to the counter of
that project's funding scheme on that pair.  Without the title
proviso the claim fails: a usable-identifier project with `title: null`
raises at `project_title[:60]` (line 161) having performed zero
increments — see the counterexample. -/
theorem claim_C1 (st : AggState) (p : Project) (i tt : String)
    (h1 : identifierOf p = Except.ok i) (h2 : i ≠ "")
    (h3 : titleVal p = some tt) :
    (∃ st2, processProject st p = Except.ok st2 ∧
      st2.collaboration_pairs =
        (projectPairs p).foldl (fun c pr => bumpPair c pr (schemeOf p))
          st.collaboration_pairs) ∧
    (projectPairs p).length = Nat.choose (projectKeys p).length 2 ∧
    ((projectKeys p).length < 2 → projectPairs p = []) ∧
    (projectKeys p).Nodup ∧
    (∀ pr ∈ projectPairs p, pr.1 ≠ pr.2) ∧
    (∀ (c : CollabTable) (pr : String × String) (s : Option String),
      pairCount (bumpPair c pr s) pr s = pairCount c pr s + 1) := by
  refine ⟨⟨acceptProject (fun l => l) st p i tt,
    processProject_accept st p i tt h1 h2 h3,
    acceptProject_collab _ st p i tt⟩,
    ?_, ?_, projectKeys_nodup p, ?_,
    fun c pr s => pairCount_bumpPair c pr s⟩
  · unfold projectPairs
    by_cases hg : 2 ≤ (projectKeys p).length
    · rw [if_pos hg, pairsOf_length, (sortStrings_perm _).length_eq]
    · rw [if_neg hg, Nat.choose_eq_zero_of_lt (by omega)]
      rfl
  · intro hlt
    unfold projectPairs
    rw [if_neg (by omega)]
  · intro pr hpr
    unfold projectPairs at hpr
    by_cases hg : 2 ≤ (projectKeys p).length
    · rw [if_pos hg] at hpr
      exact (pairsOf_mem_lt
        (sortStrings_sorted_lt (projectKeys_nodup p)) pr hpr).2
    · rw [if_neg hg] at hpr
      simp at hpr

/-- A concrete accepted project with three distinct ROR-keyed members. -/
def pC1 : Project :=
  ⟨some (JStr.str "G1"), none, some (JStr.str "Title"),
    some (JStr.str "Scheme A"),
    some (some [⟨some "https://ror.org/Y", none, none, none⟩,
      ⟨some "https://ror.org/X", none, none, none⟩,
      ⟨some "https://ror.org/Z", none, none, none⟩]), none⟩

/-- A project with a usable identifier, two resolvable members and a
present-`null` title. -/
def pC1null : Project :=
  ⟨some (JStr.str "G"), none, some JStr.null, some (JStr.str "S"),
    some (some [⟨some "https://ror.org/Y", none, none, none⟩,
      ⟨some "https://ror.org/X", none, none, none⟩]), none⟩

/-- Counterexample to C1 as stated: this project has a usable
identifier and two distinct institution keys, so the claim demands
C(2,2) = 1 increment; instead the aggregator raises at the title slice
with zero increments performed. -/
theorem claim_C1_counterexample :
    identifierOf pC1null = Except.ok "G" ∧
    (projectKeys pC1null).length = 2 ∧
    Nat.choose 2 2 = 1 ∧
    processProject ⟨[], [], [], [], []⟩ pC1null = Except.error () ∧
    extract_collaborations [pC1null] = Except.error () :=
  ⟨by rfl, by rfl, by rfl, by rfl, by rfl⟩

/-- Witness for C1 at a concrete three-institution project. -/
theorem claim_C1_witness :
    (∃ st2, processProject ⟨[], [], [], [], []⟩ pC1 = Except.ok st2 ∧
      st2.collaboration_pairs =
        (projectPairs pC1).foldl
          (fun c pr => bumpPair c pr (schemeOf pC1)) []) ∧
    (projectPairs pC1).length = Nat.choose (projectKeys pC1).length 2 ∧
    ((projectKeys pC1).length < 2 → projectPairs pC1 = []) ∧
    (projectKeys pC1).Nodup ∧
    (∀ pr ∈ projectPairs pC1, pr.1 ≠ pr.2) ∧
    (∀ (c : CollabTable) (pr : String × String) (s : Option String),
      pairCount (bumpPair c pr s) pr s = pairCount c pr s + 1) :=
  claim_C1 ⟨[], [], [], [], []⟩ pC1 "G1" "Title" (by rfl) (by decide)
    (by rfl)

/-- Claim C2: the collaboration table is symmetric under
canonicalization — for two distinct co-occurring keys the increment goes
to the lexicographically sorted string pair, the canonicalization of
(A,B) and of (B,A) coincide, the reversed pair is never incremented, and
processing the members in any order yields the same sorted key list. -/
theorem claim_C2 (p : Project) (a b : String)
    (ha : a ∈ projectKeys p) (hb : b ∈ projectKeys p) (hab : a ≠ b) :
    sortPair a b = sortPair b a ∧
    sortPair a b ∈ projectPairs p ∧
    (sortPair a b).swap ∉ projectPairs p ∧
    (∀ ms : List Member, List.Perm ms (membersOf p) →
      sortStrings (keysOfMembers ms) = sortStrings (projectKeys p)) := by
  have hg : 2 ≤ (projectKeys p).length := two_le_length_of_mem ha hb hab
  have hpp : projectPairs p = pairsOf (sortStrings (projectKeys p)) := by
    unfold projectPairs
    rw [if_pos hg]
  have hsl := sortStrings_sorted_lt (projectKeys_nodup p)
  have has : a ∈ sortStrings (projectKeys p) :=
    ((sortStrings_perm _).mem_iff).mpr ha
  have hbs : b ∈ sortStrings (projectKeys p) :=
    ((sortStrings_perm _).mem_iff).mpr hb
  have hperm : ∀ ms : List Member, List.Perm ms (membersOf p) →
      sortStrings (keysOfMembers ms) = sortStrings (projectKeys p) := by
    intro ms hms
    apply sortStrings_eq_of_perm
    apply (List.perm_ext_iff_of_nodup (keysOfMembers_nodup ms)
      (projectKeys_nodup p)).mpr
    intro x
    rw [mem_keysOfMembers, mem_projectKeys]
    exact (hms.filterMap _).mem_iff
  rcases strLt_or_strLt hab with h | h
  · have e1 : sortPair a b = (a, b) := if_pos h.1
    have e2 : sortPair b a = (a, b) :=
      if_neg (fun hba => h.2 (antisymm h.1 hba))
    refine ⟨e1.trans e2.symm, ?_, ?_, hperm⟩
    · rw [e1, hpp]
      exact mem_pairsOf (fun hx => strLt_asymm hx) hsl has hbs h
    · rw [e1, hpp]
      intro hc
      exact absurd h (strLt_asymm (pairsOf_mem_lt hsl _ hc))
  · have e1 : sortPair a b = (b, a) :=
      if_neg (fun hab2 => h.2 (antisymm h.1 hab2))
    have e2 : sortPair b a = (b, a) := if_pos h.1
    refine ⟨e1.trans e2.symm, ?_, ?_, hperm⟩
    · rw [e1, hpp]
      exact mem_pairsOf (fun hx => strLt_asymm hx) hsl hbs has h
    · rw [e1, hpp]
      intro hc
      exact absurd h (strLt_asymm (pairsOf_mem_lt hsl _ hc))

/-- A concrete project with two distinct ROR-keyed members. -/
def pC2 : Project :=
  ⟨some (JStr.str "G2"), none, some (JStr.str "Title"),
    some (JStr.str "Scheme A"),
    some (some [⟨some "https://ror.org/Y", none, none, none⟩,
      ⟨some "https://ror.org/X", none, none, none⟩]), none⟩

/-- Witness for C2 at a concrete two-institution project. -/
theorem claim_C2_witness :
    sortPair "ror:X" "ror:Y" = sortPair "ror:Y" "ror:X" ∧
    sortPair "ror:X" "ror:Y" ∈ projectPairs pC2 ∧
    (sortPair "ror:X" "ror:Y").swap ∉ projectPairs pC2 ∧
    (∀ ms : List Member, List.Perm ms (membersOf pC2) →
      sortStrings (keysOfMembers ms) = sortStrings (projectKeys pC2)) :=
  claim_C2 pC2 "ror:X" "ror:Y" (by decide) (by decide) (by decide)

lemma nodup_snoc {α : Type} {l : List α} {a : α} (h : l.Nodup)
    (ha : a ∉ l) : (l ++ [a]).Nodup := by
  rw [List.nodup_append]
  refine ⟨h, List.nodup_singleton a, ?_⟩
  intro x hx hxa
  rw [List.mem_singleton] at hxa
  exact ha (hxa ▸ hx)

/-- The invariant C3 asserts: every stored project list has pairwise
distinct identifiers and is a sublist of the accepted-projects list
(hence in first-seen order). -/
def IndexConsistent (st : AggState) : Prop :=
  ∀ k l, alGet k st.institution_projects = some l →
    (l.map (fun q => q.grant_id)).Nodup ∧ l.Sublist st.all_projects_list

lemma indexConsistent_step (order : List String → List String)
    (st : AggState) (p : Project) (st2 : AggState)
    (h : processProjectWith order st p = Except.ok st2)
    (hinv : IndexConsistent st) : IndexConsistent st2 := by
  unfold processProjectWith at h
  cases hid : identifierOf p with
  | error e =>
    rw [hid] at h
    exact Except.noConfusion (h : Except.error e = Except.ok st2)
  | ok i =>
    rw [hid] at h
    have h2 : (if i = "" then Except.ok st
        else match titleVal p with
          | none => Except.error ()
          | some tt => Except.ok (acceptProject order st p i tt)) =
        Except.ok st2 := h
    by_cases hi : i = ""
    · rw [if_pos hi] at h2
      injection h2 with h3
      subst h3
      exact hinv
    · rw [if_neg hi] at h2
      cases ht : titleVal p with
      | none =>
        rw [ht] at h2
        exact Except.noConfusion (h2 : Except.error () = Except.ok st2)
      | some tt =>
        rw [ht] at h2
        have h4 : Except.ok (acceptProject order st p i tt) =
            Except.ok st2 := h2
        injection h4 with h3
        subst h3
        intro k l hk
        have hk2 : alGet k ((order (stKeys st p)).foldl
            (fun idx k2 => instUpdate idx (projInfoOf p i tt) k2)
            st.institution_projects) = some l := hk
        rw [alGet_updateIndex] at hk2
        show _ ∧ l.Sublist (st.all_projects_list ++ [projInfoOf p i tt])
        by_cases hmem : k ∈ order (stKeys st p)
        · rw [if_pos hmem] at hk2
          injection hk2 with hk3
          cases ho : alGet k st.institution_projects with
          | none =>
            rw [ho] at hk3
            subst hk3
            exact ⟨List.nodup_singleton _,
              List.sublist_append_right st.all_projects_list _⟩
          | some l0 =>
            rw [ho] at hk3
            obtain ⟨hnd, hsub⟩ := hinv k l0 ho
            cases hany : l0.any
                (fun q => q.grant_id = (projInfoOf p i tt).grant_id) with
            | true =>
              rw [show updF (projInfoOf p i tt) (some l0) = l0 by
                simp [updF, hany]] at hk3
              subst hk3
              exact ⟨hnd, hsub.trans (List.sublist_append_left _ _)⟩
            | false =>
              rw [show updF (projInfoOf p i tt) (some l0) =
                  l0 ++ [projInfoOf p i tt] by
                simp [updF, hany]] at hk3
              subst hk3
              have hnotin : (projInfoOf p i tt).grant_id ∉
                  l0.map (fun q => q.grant_id) := by
                rw [List.any_eq_false] at hany
                intro hmem2
                rcases List.mem_map.mp hmem2 with ⟨q, hq, hqe⟩
                exact absurd (by simpa using hqe) (by simpa using hany q hq)
              constructor
              · rw [List.map_append]
                exact nodup_snoc hnd hnotin
              · exact hsub.append (List.Sublist.refl _)
        · rw [if_neg hmem] at hk2
          obtain ⟨hnd, hsub⟩ := hinv k l hk2
          exact ⟨hnd, hsub.trans (List.sublist_append_left _ _)⟩

lemma indexConsistent_foldlM (order : List String → List String)
    (ps : List Project) :
    ∀ (st st2 : AggState),
      ps.foldlM (processProjectWith order) st = Except.ok st2 →
      IndexConsistent st → IndexConsistent st2 := by
  induction ps with
  | nil =>
    intro st st2 h hinv
    have h2 : (Except.ok st : Except Unit AggState) = Except.ok st2 := h
    injection h2 with h3
    subst h3
    exact hinv
  | cons p t ih =>
    intro st st2 h hinv
    rw [List.foldlM_cons] at h
    cases hp : processProjectWith order st p with
    | error e =>
      rw [hp] at h
      exact Except.noConfusion (h : Except.error e = Except.ok st2)
    | ok st1 =>
      rw [hp] at h
      exact ih st1 st2 h (indexConsistent_step order st p st1 hp hinv)

/-- Claim C3: in the aggregated institution → projects index, no
institution's list contains two entries with the same project identifier,
and each list is a sublist of the accepted-projects list, i.e. entries
appear in first-seen order across the fetched project list. -/
theorem claim_C3 (ps : List Project) (res : AggState)
    (h : extract_collaborations ps = Except.ok res) :
    ∀ k l, alGet k res.institution_projects = some l →
      (l.map (fun q => q.grant_id)).Nodup ∧
      l.Sublist res.all_projects_list := by
  unfold extract_collaborations extract_collaborationsWith at h
  cases hf : List.foldlM (processProjectWith (fun l => l))
      ⟨[], [], [], [], []⟩ ps with
  | error e =>
    rw [hf] at h
    exact Except.noConfusion (h : Except.error e = Except.ok res)
  | ok st =>
    rw [hf] at h
    have h2 : (match pySortSchemes st.funding_schemes with
        | Except.error e => Except.error e
        | Except.ok fs => Except.ok { st with funding_schemes := fs }) =
        Except.ok res := h
    cases hs : pySortSchemes st.funding_schemes with
    | error e =>
      rw [hs] at h2
      exact Except.noConfusion (h2 : Except.error e = Except.ok res)
    | ok fs =>
      rw [hs] at h2
      have h3 : Except.ok { st with funding_schemes := fs } =
          Except.ok res := h2
      injection h3 with h4
      subst h4
      have hic := indexConsistent_foldlM (fun l => l) ps
        ⟨[], [], [], [], []⟩ st hf (by intro k l hk; simp [alGet] at hk)
      intro k l hk
      exact hic k l hk

/-- Witness for C3: the index built from one concrete two-member project. -/
theorem claim_C3_witness :
    (([(⟨"G2", "Title", some "Scheme A"⟩ : ProjInfo)]).map
      (fun q => q.grant_id)).Nodup ∧
    List.Sublist [(⟨"G2", "Title", some "Scheme A"⟩ : ProjInfo)]
      [(⟨"G2", "Title", some "Scheme A"⟩ : ProjInfo)] :=
  claim_C3 [pC2]
    ⟨[("ror:Y", [⟨"G2", "Title", some "Scheme A"⟩]),
      ("ror:X", [⟨"G2", "Title", some "Scheme A"⟩])],
      [(("ror:X", "ror:Y"), [(some "Scheme A", 1)])],
      [some "Scheme A"], [⟨"G2", "Title", some "Scheme A"⟩], []⟩
    (by rfl) "ror:X" [⟨"G2", "Title", some "Scheme A"⟩] (by rfl)

lemma orgFallback_ne_ror (m : Member) (i : String) :
    orgFallback m ≠ some (MemberRes.ror i) := by
  unfold orgFallback
  cases normalize_org_name (m.organisation.getD "") with
  | none => simp
  | some base =>
    by_cases hb : base = ""
    · simp [hb]
    · simp only [hb, if_false]
      cases alGet base DUTCH_INSTITUTIONS with
      | none => simp
      | some info => simp

lemma orgFallback_eq_org (m : Member) (info : InstInfo) :
    orgFallback m = some (MemberRes.org info) ↔
      ∃ base, normalize_org_name (m.organisation.getD "") = some base ∧
        base ≠ "" ∧ alGet base DUTCH_INSTITUTIONS = some info := by
  unfold orgFallback
  cases hn : normalize_org_name (m.organisation.getD "") with
  | none => simp
  | some base =>
    by_cases hb : base = ""
    · simp [hb]
    · simp only [hb, if_false]
      cases hg : alGet base DUTCH_INSTITUTIONS with
      | none => simp [hb, hg]
      | some info2 =>
        simp only [Option.map_some']
        constructor
        · intro h
          injection h with h2
          cases h2
          exact ⟨base, rfl, hb, hg⟩
        · rintro ⟨base2, hbe, hb2, hg2⟩
          injection hbe with hbe2
          subst hbe2
          rw [hg] at hg2
          injection hg2 with hg3
          rw [hg3]

/-- The acceptance condition of the registry branch, evaluated on the
value produced by the alias chain. -/
def rorAccept (m : Member) : Prop :=
  ∃ r, rorOf m = some r ∧ r ≠ "" ∧ r ≠ "-" ∧ pyContains r "ror.org/"

/-- Claim C4 (amended): resolution returns a registry key iff the first
truthy value of the alias chain `ror` / `rorId` / `institution_ror` is
not the sentinel `"-"` and contains `"ror.org/"` (not: iff some aliased
field does), with the id the segment after the last occurrence of the
fragment; otherwise it returns a table key iff the trimmed first
`"||"`-segment of the organisation is a key of the static table; and the
`"TU Delft||Faculty of EEMCS"` example resolves to Delft University of
Technology at (52.0024, 4.3736) (stored ×10⁴). -/
theorem claim_C4 :
    (∀ (m : Member) (i : String),
      resolveMember m = some (MemberRes.ror i) ↔
        ∃ r, rorOf m = some r ∧ r ≠ "" ∧ r ≠ "-" ∧
          pyContains r "ror.org/" ∧
          i = (pySplit r "ror.org/").getLastD "") ∧
    (∀ (m : Member) (info : InstInfo),
      resolveMember m = some (MemberRes.org info) ↔
        ¬ rorAccept m ∧
        ∃ base, normalize_org_name (m.organisation.getD "") = some base ∧
          base ≠ "" ∧ alGet base DUTCH_INSTITUTIONS = some info) ∧
    resolveMember ⟨none, none, none, some "TU Delft||Faculty of EEMCS"⟩ =
      some (MemberRes.org ⟨"Delft University of Technology", 520024, 43736⟩) := by
  refine ⟨?_, ?_, by rfl⟩
  · intro m i
    unfold resolveMember
    cases hr : rorOf m with
    | none =>
      constructor
      · intro h
        exact absurd h (orgFallback_ne_ror m i)
      · rintro ⟨r, hre, _⟩
        exact Option.noConfusion hre
    | some r =>
      change (if r ≠ "" ∧ r ≠ "-" ∧ pyContains r "ror.org/" then
        some (MemberRes.ror ((pySplit r "ror.org/").getLastD ""))
        else orgFallback m) = _ ↔ _
      by_cases hc : r ≠ "" ∧ r ≠ "-" ∧ pyContains r "ror.org/"
      · rw [if_pos hc]
        constructor
        · intro h
          injection h with h2
          injection h2 with h3
          exact ⟨r, rfl, hc.1, hc.2.1, hc.2.2, h3.symm⟩
        · rintro ⟨r2, hre, _, _, _, hi⟩
          injection hre with hre2
          subst hre2
          rw [hi]
      · rw [if_neg hc]
        constructor
        · intro h
          exact absurd h (orgFallback_ne_ror m i)
        · rintro ⟨r2, hre, h1, h2, h3, _⟩
          injection hre with hre2
          subst hre2
          exact (hc ⟨h1, h2, h3⟩).elim
  · intro m info
    unfold resolveMember
    cases hr : rorOf m with
    | none =>
      rw [orgFallback_eq_org]
      constructor
      · intro h
        refine ⟨?_, h⟩
        rintro ⟨r, hre, _⟩
        rw [hr] at hre
        exact Option.noConfusion hre
      · exact fun h => h.2
    | some r =>
      change (if r ≠ "" ∧ r ≠ "-" ∧ pyContains r "ror.org/" then
        some (MemberRes.ror ((pySplit r "ror.org/").getLastD ""))
        else orgFallback m) = _ ↔ _
      by_cases hc : r ≠ "" ∧ r ≠ "-" ∧ pyContains r "ror.org/"
      · rw [if_pos hc]
        constructor
        · intro h
          injection h with h2
          exact MemberRes.noConfusion h2
        · rintro ⟨hna, _⟩
          exact absurd ⟨r, hr, hc.1, hc.2.1, hc.2.2⟩ hna
      · rw [if_neg hc]
        rw [orgFallback_eq_org]
        constructor
        · intro h
          refine ⟨?_, h⟩
          rintro ⟨r2, hre, h1, h2, h3⟩
          rw [hr] at hre
          injection hre with hre2
          subst hre2
          exact hc ⟨h1, h2, h3⟩
        · exact fun h => h.2

/-- Counterexample to C4 as stated: the `ror` field holds the sentinel
`"-"` (truthy, so the alias chain stops there) while `rorId` holds a
perfectly valid registry URL; one of the aliased fields is present,
non-sentinel and contains the fragment, yet resolution returns no key. -/
theorem claim_C4_counterexample :
    resolveMember ⟨some "-", some "https://ror.org/abc", none, none⟩ = none ∧
    (⟨some "-", some "https://ror.org/abc", none, none⟩ : Member).rorId =
      some "https://ror.org/abc" ∧
    "https://ror.org/abc" ≠ "-" ∧
    pyContains "https://ror.org/abc" "ror.org/" :=
  ⟨by rfl, rfl, by decide, by decide⟩

/-- Witness for C4: the registry iff applied at a concrete member. -/
theorem claim_C4_witness :
    resolveMember ⟨some "https://ror.org/05xvt9f17", none, none, none⟩ =
      some (MemberRes.ror "05xvt9f17") :=
  (claim_C4.1 ⟨some "https://ror.org/05xvt9f17", none, none, none⟩
    "05xvt9f17").mpr
    ⟨"https://ror.org/05xvt9f17", by rfl, by decide, by decide, by decide,
      by rfl⟩

/-- The grant-identifier field as the string Python's truthiness path
sees (`null` and absent behave like the empty string on this field,
because a falsy value falls through to the fallback). -/
def grantStr (p : Project) : String :=
  match p.grant_id.getD (JStr.str "") with
  | JStr.null => ""
  | JStr.str s => s

/-- The fallback project-identifier field as a string (meaningful when
the stored value is not `null`). -/
def pidStr (p : Project) : String :=
  match p.project_id.getD (JStr.str "") with
  | JStr.null => ""
  | JStr.str s => s

/-- The identifier policy in the spec's words: the first of the grant
identifier and the fallback project identifier that is non-empty after
trimming (empty if neither is). -/
def specIdentifier (g pid : String) : String :=
  if pyStrip g ≠ "" then pyStrip g else pyStrip pid

lemma pyStrip_empty : pyStrip "" = "" := rfl

/-- Claim C5 (amended with the precondition that the stored fallback
project-identifier value is not JSON `null` — otherwise the aggregator
raises, see C10): the identifier is the first non-empty-after-trimming
of grant identifier and fallback identifier, and a project yielding
neither is skipped silently, contributing nothing to any output of the
aggregation step and raising no error. -/
theorem claim_C5 (st : AggState) (p : Project)
    (hn : p.project_id ≠ some JStr.null) :
    identifierOf p = Except.ok (specIdentifier (grantStr p) (pidStr p)) ∧
    (specIdentifier (grantStr p) (pidStr p) = "" →
      processProject st p = Except.ok st) := by
  have hfb : fallbackId p = Except.ok (pyStrip (pidStr p)) := by
    unfold fallbackId pidStr
    cases hpid : p.project_id with
    | none => rfl
    | some v =>
      cases v with
      | null => exact absurd hpid hn
      | str s => rfl
  have hid : identifierOf p =
      Except.ok (specIdentifier (grantStr p) (pidStr p)) := by
    unfold identifierOf grantStr specIdentifier
    cases hg : p.grant_id.getD (JStr.str "") with
    | null =>
      change fallbackId p = Except.ok
        (if pyStrip "" ≠ "" then pyStrip "" else pyStrip (pidStr p))
      rw [hfb, if_neg (by simp [pyStrip_empty])]
    | str s =>
      change (if s ≠ "" ∧ pyStrip s ≠ "" then Except.ok (pyStrip s)
        else fallbackId p) = Except.ok
        (if pyStrip s ≠ "" then pyStrip s else pyStrip (pidStr p))
      by_cases hs : pyStrip s ≠ ""
      · have hs2 : s ≠ "" := by
          intro h0
          rw [h0, pyStrip_empty] at hs
          exact hs rfl
        rw [if_pos ⟨hs2, hs⟩, if_pos hs]
      · rw [if_neg (fun hand => hs hand.2), hfb, if_neg hs]
  refine ⟨hid, ?_⟩
  intro h0
  unfold processProject processProjectWith
  rw [hid, h0]
  rfl

/-- A project record carrying no identifier fields at all. -/
def pEmptyId : Project := ⟨none, none, none, none, none, none⟩

/-- Witness for C5: the empty-identifier project is skipped silently. -/
theorem claim_C5_witness :
    identifierOf pEmptyId =
      Except.ok (specIdentifier (grantStr pEmptyId) (pidStr pEmptyId)) ∧
    (specIdentifier (grantStr pEmptyId) (pidStr pEmptyId) = "" →
      processProject ⟨[], [], [], [], []⟩ pEmptyId =
        Except.ok ⟨[], [], [], [], []⟩) :=
  claim_C5 ⟨[], [], [], [], []⟩ pEmptyId (by simp [pEmptyId])

/-- A project whose grant identifier is absent and whose
project-identifier field is present but holds JSON `null`. -/
def pNullId : Project := ⟨none, some JStr.null, none, none, none, none⟩

/-- Counterexample to C5 as stated: this project yields no non-empty
identifier, yet the aggregator raises (Python `AttributeError` on
`None.strip()`) instead of skipping it silently. -/
theorem claim_C5_counterexample :
    extract_collaborations [pNullId] = Except.error () ∧
    pNullId.grant_id = none :=
  ⟨by rfl, rfl⟩

/-- The truthiness-plus-strip test on the grant identifier
(`grant_id and grant_id.strip()`): when it fails, control falls through
to `project_id.strip()`. -/
def grantUsable (p : Project) : Prop :=
  grantStr p ≠ "" ∧ pyStrip (grantStr p) ≠ ""

lemma fallbackId_error_iff (p : Project) :
    fallbackId p = Except.error () ↔ p.project_id = some JStr.null := by
  unfold fallbackId
  cases hpid : p.project_id with
  | none =>
    constructor
    · intro h
      exact Except.noConfusion
        (h : Except.ok (pyStrip "") = Except.error ())
    · intro h
      exact Option.noConfusion h
  | some v =>
    cases v with
    | null => exact ⟨fun _ => rfl, fun _ => rfl⟩
    | str s =>
      constructor
      · intro h
        exact Except.noConfusion
          (h : Except.ok (pyStrip s) = Except.error ())
      · intro h
        injection h with h2
        exact JStr.noConfusion h2

/-- The identifier computation raises exactly when the grant identifier
is falsy or blank and the stored `project_id` value is JSON `null`. -/
lemma identifierOf_error_iff (p : Project) :
    identifierOf p = Except.error () ↔
      ¬ grantUsable p ∧ p.project_id = some JStr.null := by
  unfold identifierOf grantUsable grantStr
  cases hg : p.grant_id with
  | none =>
    change (if ("" : String) ≠ "" ∧ pyStrip "" ≠ "" then
        Except.ok (pyStrip "") else fallbackId p) = Except.error () ↔
      ¬ (("" : String) ≠ "" ∧ pyStrip "" ≠ "") ∧
        p.project_id = some JStr.null
    rw [if_neg (by simp), fallbackId_error_iff]
    exact ⟨fun h => ⟨by simp, h⟩, fun h => h.2⟩
  | some v =>
    cases v with
    | null =>
      change fallbackId p = Except.error () ↔
        ¬ (("" : String) ≠ "" ∧ pyStrip "" ≠ "") ∧
          p.project_id = some JStr.null
      rw [fallbackId_error_iff]
      exact ⟨fun h => ⟨by simp, h⟩, fun h => h.2⟩
    | str s =>
      change (if s ≠ "" ∧ pyStrip s ≠ "" then
          Except.ok (pyStrip s) else fallbackId p) = Except.error () ↔
        ¬ (s ≠ "" ∧ pyStrip s ≠ "") ∧ p.project_id = some JStr.null
      by_cases hs : s ≠ "" ∧ pyStrip s ≠ ""
      · rw [if_pos hs]
        exact ⟨fun h => Except.noConfusion h, fun h => absurd hs h.1⟩
      · rw [if_neg hs, fallbackId_error_iff]
        exact ⟨fun h => ⟨hs, h⟩, fun h => h.2⟩

lemma processProject_error_of_bad (st : AggState) (p : Project)
    (hbad : ¬ grantUsable p ∧ p.project_id = some JStr.null) :
    processProject st p = Except.error () := by
  have hi : identifierOf p = Except.error () :=
    (identifierOf_error_iff p).mpr hbad
  unfold processProject processProjectWith
  rw [hi]

lemma foldlM_error_of_bad (ps : List Project) :
    ∀ st : AggState,
      (∃ p ∈ ps, ¬ grantUsable p ∧ p.project_id = some JStr.null) →
      ps.foldlM processProject st = Except.error () := by
  induction ps with
  | nil =>
    intro st h
    obtain ⟨p, hp, _⟩ := h
    simp at hp
  | cons q t ih =>
    intro st h
    rw [List.foldlM_cons]
    obtain ⟨p, hp, hbad⟩ := h
    rcases List.mem_cons.mp hp with rfl | hp2
    · rw [processProject_error_of_bad st p hbad]
      rfl
    · cases hq : processProject st q with
      | error e =>
        cases e
        rfl
      | ok st1 =>
        exact ih st1 ⟨p, hp2, hbad⟩

lemma extract_error_of_bad (ps : List Project)
    (h : ∃ p ∈ ps, ¬ grantUsable p ∧ p.project_id = some JStr.null) :
    extract_collaborations ps = Except.error () := by
  unfold extract_collaborations extract_collaborationsWith
  rw [show List.foldlM (processProjectWith (fun l => l))
      (⟨[], [], [], [], []⟩ : AggState) ps =
      List.foldlM processProject (⟨[], [], [], [], []⟩ : AggState) ps
      from rfl,
    foldlM_error_of_bad ps ⟨[], [], [], [], []⟩ h]

/-- Claim C10: the aggregator is total only under the precondition that
every project record's fallback project-identifier field, when present,
holds a string.  The identifier computation raises (Python
`AttributeError` on `None.strip()`) exactly when the grant identifier is
falsy or blank and the stored `project_id` is JSON `null`; any input
containing such a project makes the whole aggregation raise instead of
silently dropping it, and the concrete null-`project_id` record does so.
The precondition is necessary, not sufficient: a present-`null` title
also raises — see C1's counterexample. -/
theorem claim_C10 :
    (∀ p : Project, identifierOf p = Except.error () ↔
      ¬ grantUsable p ∧ p.project_id = some JStr.null) ∧
    extract_collaborations [pNullId] = Except.error () ∧
    (∀ ps : List Project,
      (∃ p ∈ ps, ¬ grantUsable p ∧ p.project_id = some JStr.null) →
      extract_collaborations ps = Except.error ()) :=
  ⟨identifierOf_error_iff, by rfl, extract_error_of_bad⟩

/-- Witness for C10: the error characterization applied at the concrete
null-`project_id` record. -/
theorem claim_C10_witness :
    identifierOf pNullId = Except.error () :=
  (claim_C10.1 pNullId).mpr ⟨fun h => h.1 rfl, rfl⟩

instance : IsTotal ((String × String) × List (Option String × Nat)) totGe :=
  ⟨fun a b => le_total (totalOf b) (totalOf a)⟩

instance : IsTrans ((String × String) × List (Option String × Nat)) totGe :=
  ⟨fun _ _ _ h1 h2 => le_trans h2 h1⟩

lemma sortPairsDesc_perm (c : CollabTable) :
    List.Perm (sortPairsDesc c) c :=
  List.perm_insertionSort _ c

lemma sortPairsDesc_sorted (c : CollabTable) :
    (sortPairsDesc c).Sorted totGe :=
  List.sorted_insertionSort _ c

lemma buildLinks_eq_filterMap (allInst : List (String × Institution))
    (c : CollabTable) :
    buildLinks allInst c =
      ((sortPairsDesc c).take 50).filterMap (linkOf allInst) := by
  unfold buildLinks
  rw [foldl_emit_eq_filterMap (linkOf allInst) ((sortPairsDesc c).take 50)]
  rfl

lemma buildInstitutions_eq_filterMap (idx : InstIndex)
    (allInst : List (String × Institution)) :
    buildInstitutions idx allInst = idx.filterMap (instRecordOf allInst) := by
  unfold buildInstitutions
  rw [foldl_emit_eq_filterMap (instRecordOf allInst) idx]
  rfl

lemma truthyCoord_some {o : Option Int} (h : truthyCoord o = true) :
    ∃ x, o = some x ∧ x ≠ 0 := by
  cases o with
  | none => simp [truthyCoord] at h
  | some x =>
    refine ⟨x, rfl, ?_⟩
    simpa [truthyCoord] using h

lemma linkOf_count (allInst : List (String × Institution))
    (e : (String × String) × List (Option String × Nat)) (L : OutLink)
    (h : linkOf allInst e = some L) :
    L.count = sumVals L.scheme_counts := by
  unfold linkOf at h
  cases h1 : alGet e.1.1 allInst with
  | none => rw [h1] at h; simp at h
  | some i1 =>
    rw [h1] at h
    cases h2 : alGet e.1.2 allInst with
    | none => rw [h2] at h; simp at h
    | some i2 =>
      rw [h2] at h
      change (if truthyCoord i1.lat ∧ truthyCoord i1.lng ∧
          truthyCoord i2.lat ∧ truthyCoord i2.lng then
        (match i1.lat, i1.lng, i2.lat, i2.lng with
          | some la1, some lo1, some la2, some lo2 =>
            some (⟨⟨la1, lo1, i1.name⟩, ⟨la2, lo2, i2.name⟩,
              sumVals e.2, e.2⟩ : OutLink)
          | _, _, _, _ => none)
        else none) = some L at h
      split_ifs at h with hc
      · obtain ⟨la1, hla1, _⟩ := truthyCoord_some hc.1
        obtain ⟨lo1, hlo1, _⟩ := truthyCoord_some hc.2.1
        obtain ⟨la2, hla2, _⟩ := truthyCoord_some hc.2.2.1
        obtain ⟨lo2, hlo2, _⟩ := truthyCoord_some hc.2.2.2
        rw [hla1, hlo1, hla2, hlo2] at h
        have h3 : some (⟨⟨la1, lo1, i1.name⟩, ⟨la2, lo2, i2.name⟩,
            sumVals e.2, e.2⟩ : OutLink) = some L := h
        injection h3 with h4
        rw [← h4]

lemma linkOf_isSome_iff (allInst : List (String × Institution))
    (e : (String × String) × List (Option String × Nat)) :
    (linkOf allInst e).isSome = true ↔
      ∃ i1 i2, alGet e.1.1 allInst = some i1 ∧
        alGet e.1.2 allInst = some i2 ∧
        truthyCoord i1.lat = true ∧ truthyCoord i1.lng = true ∧
        truthyCoord i2.lat = true ∧ truthyCoord i2.lng = true := by
  constructor
  · intro hs
    cases hx : linkOf allInst e with
    | none => rw [hx] at hs; simp at hs
    | some L =>
      unfold linkOf at hx
      cases h1 : alGet e.1.1 allInst with
      | none => rw [h1] at hx; simp at hx
      | some i1 =>
        rw [h1] at hx
        cases h2 : alGet e.1.2 allInst with
        | none => rw [h2] at hx; simp at hx
        | some i2 =>
          rw [h2] at hx
          change (if truthyCoord i1.lat ∧ truthyCoord i1.lng ∧
              truthyCoord i2.lat ∧ truthyCoord i2.lng then
            (match i1.lat, i1.lng, i2.lat, i2.lng with
              | some la1, some lo1, some la2, some lo2 =>
                some (⟨⟨la1, lo1, i1.name⟩, ⟨la2, lo2, i2.name⟩,
                  sumVals e.2, e.2⟩ : OutLink)
              | _, _, _, _ => none)
            else none) = some L at hx
          split_ifs at hx with hc
          exact ⟨i1, i2, rfl, rfl, hc.1, hc.2.1, hc.2.2.1, hc.2.2.2⟩
  · rintro ⟨i1, i2, h1, h2, t1, t2, t3, t4⟩
    unfold linkOf
    rw [h1, h2]
    change (if truthyCoord i1.lat ∧ truthyCoord i1.lng ∧
        truthyCoord i2.lat ∧ truthyCoord i2.lng then
      (match i1.lat, i1.lng, i2.lat, i2.lng with
        | some la1, some lo1, some la2, some lo2 =>
          some (⟨⟨la1, lo1, i1.name⟩, ⟨la2, lo2, i2.name⟩,
            sumVals e.2, e.2⟩ : OutLink)
        | _, _, _, _ => none)
      else none).isSome = true
    rw [if_pos ⟨t1, t2, t3, t4⟩]
    obtain ⟨la1, hla1, _⟩ := truthyCoord_some t1
    obtain ⟨lo1, hlo1, _⟩ := truthyCoord_some t2
    obtain ⟨la2, hla2, _⟩ := truthyCoord_some t3
    obtain ⟨lo2, hlo2, _⟩ := truthyCoord_some t4
    rw [hla1, hlo1, hla2, hlo2]
    rfl

/-- Claim C6 (amended): the assembler stably sorts the collaboration
table by total count descending, keeps the first 50, and emits a link
exactly for each kept pair whose two endpoints are present in the
resolved metadata with truthy coordinates (not `None` and not `0.0` —
the truthiness test is stricter than the claim's "lacks resolved
coordinates"); each emitted link's `count` is the sum of its per-scheme
counts. -/
theorem claim_C6 (allInst : List (String × Institution)) (c : CollabTable) :
    List.Perm (sortPairsDesc c) c ∧
    (sortPairsDesc c).Sorted (fun a b => totalOf b ≤ totalOf a) ∧
    buildLinks allInst c =
      ((sortPairsDesc c).take 50).filterMap (linkOf allInst) ∧
    (buildLinks allInst c).length ≤ 50 ∧
    (∀ e, (linkOf allInst e).isSome = true ↔
      ∃ i1 i2, alGet e.1.1 allInst = some i1 ∧
        alGet e.1.2 allInst = some i2 ∧
        truthyCoord i1.lat = true ∧ truthyCoord i1.lng = true ∧
        truthyCoord i2.lat = true ∧ truthyCoord i2.lng = true) ∧
    (∀ L ∈ buildLinks allInst c, L.count = sumVals L.scheme_counts) := by
  refine ⟨sortPairsDesc_perm c, sortPairsDesc_sorted c,
    buildLinks_eq_filterMap allInst c, ?_, linkOf_isSome_iff allInst, ?_⟩
  · rw [buildLinks_eq_filterMap]
    calc (((sortPairsDesc c).take 50).filterMap (linkOf allInst)).length
        ≤ ((sortPairsDesc c).take 50).length := List.length_filterMap_le _ _
      _ ≤ 50 := by
          rw [List.length_take]
          exact min_le_left _ _
  · intro L hL
    rw [buildLinks_eq_filterMap] at hL
    obtain ⟨e, _, he⟩ := List.mem_filterMap.mp hL
    exact linkOf_count allInst e L he

/-- An institution table where institution A has resolved coordinates
with latitude exactly 0 (`0.0` in Python, falsy) and B has ordinary
nonzero coordinates. -/
def instC9 : List (String × Institution) :=
  [("org:A", ⟨"A", some 0, some 40000, "NL", "NL", none⟩),
   ("org:B", ⟨"B", some 520000, some 40000, "NL", "NL", none⟩)]

/-- An index giving one project to each of A and B. -/
def idxC9 : InstIndex :=
  [("org:A", [⟨"g1", "t", "S"⟩]), ("org:B", [⟨"g1", "t", "S"⟩])]

/-- One collaboration pair between A and B. -/
def collabC9 : CollabTable := [(("org:A", "org:B"), [("S", 1)])]

/-- Counterexample to C6 as stated: the single pair is within the top
50 and both of its endpoints have resolved (non-`None`) coordinates,
yet no link is emitted, because A's latitude `0.0` fails the truthiness
test. -/
theorem claim_C6_counterexample :
    buildLinks instC9 collabC9 = [] ∧
    (sortPairsDesc collabC9).take 50 = collabC9 ∧
    alGet "org:A" instC9 = some ⟨"A", some 0, some 40000, "NL", "NL", none⟩ ∧
    alGet "org:B" instC9 =
      some ⟨"B", some 520000, some 40000, "NL", "NL", none⟩ := by
  refine ⟨by rfl, by rfl, by rfl, by rfl⟩

/-- A table with nonzero coordinates, so the A–B link survives. -/
def instC6 : List (String × Institution) :=
  [("org:A", ⟨"A", some 10, some 20, "NL", "NL", none⟩),
   ("org:B", ⟨"B", some 30, some 40, "NL", "NL", none⟩)]

/-- Witness for C6: the emitted link's count is the sum of its scheme
counts, at a concrete table and pair. -/
theorem claim_C6_witness :
    (⟨⟨10, 20, "A"⟩, ⟨30, 40, "B"⟩, 1, [("S", 1)]⟩ : OutLink).count =
      sumVals (⟨⟨10, 20, "A"⟩, ⟨30, 40, "B"⟩, 1,
        [("S", 1)]⟩ : OutLink).scheme_counts :=
  (claim_C6 instC6 collabC9).2.2.2.2.2
    ⟨⟨10, 20, "A"⟩, ⟨30, 40, "B"⟩, 1, [("S", 1)]⟩ (by decide)

/-- The resolved metadata of `key` lacks coordinates: the key is either
absent from `all_institutions` or its latitude or longitude is `None`. -/
def lacksCoords (allInst : List (String × Institution)) (key : String) :
    Prop :=
  ∀ inst, alGet key allInst = some inst →
    inst.lat = none ∨ inst.lng = none

lemma instRecordOf_none (allInst : List (String × Institution))
    {key : String} (hbad : lacksCoords allInst key)
    (lst : List ProjInfo) : instRecordOf allInst (key, lst) = none := by
  unfold instRecordOf
  cases hg : alGet (key, lst).1 allInst with
  | none => rfl
  | some inst =>
    rcases hbad inst hg with hl | hl
    · cases hla : inst.lat with
      | none =>
        change (match inst.lat, inst.lng with
          | some la, some lo => some (⟨inst.name, la, lo, lst.length, lst,
              inst.country, inst.country_code, inst.ror_id⟩ : OutInst)
          | some _, none => none
          | none, _ => none) = none
        rw [hla]
      | some la => rw [hl] at hla; exact Option.noConfusion hla
    · change (match inst.lat, inst.lng with
        | some la, some lo => some (⟨inst.name, la, lo, lst.length, lst,
            inst.country, inst.country_code, inst.ror_id⟩ : OutInst)
        | some _, none => none
        | none, _ => none) = none
      rw [hl]
      cases inst.lat with
      | none => rfl
      | some la => rfl

lemma filterMap_eq_filterMap_filter {α β : Type} (f : α → Option β)
    (pred : α → Bool) (l : List α)
    (h : ∀ e ∈ l, pred e = false → f e = none) :
    l.filterMap f = (l.filter pred).filterMap f := by
  induction l with
  | nil => rfl
  | cons e t ih =>
    have ih2 := ih (fun x hx => h x (List.mem_cons_of_mem e hx))
    cases hp : pred e with
    | true =>
      rw [List.filter_cons_of_pos (by rw [hp]), List.filterMap_cons,
        List.filterMap_cons, ih2]
    | false =>
      rw [List.filter_cons_of_neg (by rw [hp]; exact Bool.false_ne_true),
        List.filterMap_cons, h e (List.mem_cons_self e t) hp, ih2]

lemma linkOf_none_of_touch (allInst : List (String × Institution))
    {key : String} (hbad : lacksCoords allInst key)
    (e : (String × String) × List (Option String × Nat))
    (htouch : e.1.1 = key ∨ e.1.2 = key) : linkOf allInst e = none := by
  cases hx : linkOf allInst e with
  | none => rfl
  | some L =>
    have hs : (linkOf allInst e).isSome = true := by rw [hx]; rfl
    rw [linkOf_isSome_iff] at hs
    obtain ⟨i1, i2, h1, h2, t1, t2, t3, t4⟩ := hs
    rcases htouch with he | he
    · rw [he] at h1
      rcases hbad i1 h1 with hl | hl
      · rw [hl] at t1; simp [truthyCoord] at t1
      · rw [hl] at t2; simp [truthyCoord] at t2
    · rw [he] at h2
      rcases hbad i2 h2 with hl | hl
      · rw [hl] at t3; simp [truthyCoord] at t3
      · rw [hl] at t4; simp [truthyCoord] at t4

/-- Claim C7: an institution key whose resolved metadata lacks
coordinates contributes nothing to the output — removing its entries
from the index leaves the institutions array unchanged (it was never
emitted), and every emitted link originates from a ranked pair that does
not touch the key. -/
theorem claim_C7 (idx : InstIndex) (allInst : List (String × Institution))
    (c : CollabTable) (key : String)
    (hbad : lacksCoords allInst key) :
    buildInstitutions idx allInst =
      buildInstitutions (idx.filter (fun e => e.1 ≠ key)) allInst ∧
    ∀ L ∈ buildLinks allInst c, ∃ e, e ∈ (sortPairsDesc c).take 50 ∧
      linkOf allInst e = some L ∧ e.1.1 ≠ key ∧ e.1.2 ≠ key := by
  constructor
  · rw [buildInstitutions_eq_filterMap, buildInstitutions_eq_filterMap]
    apply filterMap_eq_filterMap_filter
    intro e he hp
    have hkey : e.1 = key := by
      by_contra hne
      simp [hne] at hp
    have he2 : e = (key, e.2) := by
      rw [← hkey]
    rw [he2]
    exact instRecordOf_none allInst hbad e.2
  · intro L hL
    rw [buildLinks_eq_filterMap] at hL
    obtain ⟨e, hmem, he⟩ := List.mem_filterMap.mp hL
    refine ⟨e, hmem, he, ?_, ?_⟩
    · intro h1
      rw [linkOf_none_of_touch allInst hbad e (Or.inl h1)] at he
      exact Option.noConfusion he
    · intro h2
      rw [linkOf_none_of_touch allInst hbad e (Or.inr h2)] at he
      exact Option.noConfusion he

/-- A table where institution A has an unresolved latitude. -/
def instC7 : List (String × Institution) :=
  [("org:A", ⟨"A", none, some 40000, "NL", "NL", none⟩),
   ("org:B", ⟨"B", some 520000, some 40000, "NL", "NL", none⟩),
   ("org:C", ⟨"C", some 510000, some 50000, "NL", "NL", none⟩)]

/-- An index containing the coordinate-less institution A. -/
def idxC7 : InstIndex :=
  [("org:A", [⟨"g1", "t", "S"⟩]), ("org:B", [⟨"g1", "t", "S"⟩]),
   ("org:C", [⟨"g1", "t", "S"⟩])]

/-- Pairs touching A and one pair not touching A. -/
def collabC7 : CollabTable :=
  [(("org:A", "org:B"), [("S", 1)]), (("org:B", "org:C"), [("S", 1)])]

/-- Witness for C7 at a concrete coordinate-less institution. -/
theorem claim_C7_witness :
    buildInstitutions idxC7 instC7 =
      buildInstitutions (idxC7.filter (fun e => e.1 ≠ "org:A")) instC7 ∧
    ∀ L ∈ buildLinks instC7 collabC7, ∃ e,
      e ∈ (sortPairsDesc collabC7).take 50 ∧
      linkOf instC7 e = some L ∧ e.1.1 ≠ "org:A" ∧ e.1.2 ≠ "org:A" :=
  claim_C7 idxC7 instC7 collabC7 "org:A" (by
    intro inst hinst
    have h2 : inst = ⟨"A", none, some 40000, "NL", "NL", none⟩ := by
      have := hinst
      simp [instC7, alGet] at this
      exact this.symm
    rw [h2]
    exact Or.inl rfl)

/-- Claim C9: the institutions array tests coordinates against `None`
while the links filter tests truthiness, so institution A with resolved
latitude exactly `0.0` appears in the institutions array while the only
collaboration link touching it is dropped. -/
theorem claim_C9 :
    buildInstitutions idxC9 instC9 =
      [⟨"A", 0, 40000, 1, [⟨"g1", "t", "S"⟩], "NL", "NL", none⟩,
       ⟨"B", 520000, 40000, 1, [⟨"g1", "t", "S"⟩], "NL", "NL", none⟩] ∧
    buildLinks instC9 collabC9 = [] ∧
    collabC9 ≠ [] ∧
    alGet "org:A" instC9 = some ⟨"A", some 0, some 40000, "NL", "NL", none⟩ ∧
    alGet "org:B" instC9 =
      some ⟨"B", some 520000, some 40000, "NL", "NL", none⟩ :=
  ⟨by rfl, by rfl, by decide, by rfl, by rfl⟩

/-- Observable equality of aggregation states: identical collaboration
table, funding schemes, accepted projects and organisation dict, and
extensionally identical institution index (same stored list for every
key — dict entry order, which Python's set iteration order may permute,
is not observable in any output). -/
def ObsEqSt (s t : AggState) : Prop :=
  (∀ k, alGet k s.institution_projects = alGet k t.institution_projects) ∧
  s.collaboration_pairs = t.collaboration_pairs ∧
  s.funding_schemes = t.funding_schemes ∧
  s.all_projects_list = t.all_projects_list ∧
  s.org_name_institutions = t.org_name_institutions

/-- Observable equality lifted to the fallible aggregation result. -/
def ObsEqE : Except Unit AggState → Except Unit AggState → Prop
  | Except.ok a, Except.ok b => ObsEqSt a b
  | Except.error a, Except.error b => a = b
  | _, _ => False

lemma step_obsEq (order : List String → List String)
    (horder : ∀ l : List String, List.Perm (order l) l)
    (s t : AggState) (p : Project) (h : ObsEqSt s t) :
    ObsEqE (processProjectWith order s p) (processProject t p) := by
  unfold processProject processProjectWith
  cases hid : identifierOf p with
  | error e => exact rfl
  | ok i =>
    change ObsEqE
      (if i = "" then Except.ok s
        else match titleVal p with
          | none => Except.error ()
          | some tt => Except.ok (acceptProject order s p i tt))
      (if i = "" then Except.ok t
        else match titleVal p with
          | none => Except.error ()
          | some tt => Except.ok (acceptProject (fun l => l) t p i tt))
    by_cases hi : i = ""
    · rw [if_pos hi, if_pos hi]
      exact h
    · rw [if_neg hi, if_neg hi]
      cases ht : titleVal p with
      | none => exact rfl
      | some tt =>
        change ObsEqSt (acceptProject order s p i tt)
          (acceptProject (fun l => l) t p i tt)
        refine ⟨?_, ?_, ?_, ?_, ?_⟩
        · intro k
          show alGet k ((order (stKeys s p)).foldl
              (fun idx k2 => instUpdate idx (projInfoOf p i tt) k2)
              s.institution_projects) =
            alGet k (((fun l => l) (stKeys t p)).foldl
              (fun idx k2 => instUpdate idx (projInfoOf p i tt) k2)
              t.institution_projects)
          rw [alGet_updateIndex, alGet_updateIndex, stKeys_eq, stKeys_eq]
          by_cases hm : k ∈ projectKeys p
          · rw [if_pos ((horder _).mem_iff.mpr hm), if_pos hm, h.1 k]
          · rw [if_neg (fun hc => hm ((horder _).mem_iff.mp hc)), if_neg hm]
            exact h.1 k
        · rw [acceptProject_collab, acceptProject_collab, h.2.1]
        · show insertNew s.funding_schemes (schemeOf p) =
            insertNew t.funding_schemes (schemeOf p)
          rw [h.2.2.1]
        · show s.all_projects_list ++ [projInfoOf p i tt] =
            t.all_projects_list ++ [projInfoOf p i tt]
          rw [h.2.2.2.1]
        · show stInfos s p = stInfos t p
          unfold stInfos
          rw [h.2.2.2.2]

lemma foldl_obsEq (order : List String → List String)
    (horder : ∀ l : List String, List.Perm (order l) l)
    (ps : List Project) :
    ∀ s t : AggState, ObsEqSt s t →
      ObsEqE (ps.foldlM (processProjectWith order) s)
        (ps.foldlM processProject t) := by
  induction ps with
  | nil => intro s t h; exact h
  | cons p t2 ih =>
    intro s t h
    rw [List.foldlM_cons, List.foldlM_cons]
    have hstep := step_obsEq order horder s t p h
    cases hps : processProjectWith order s p with
    | error e1 =>
      cases hpt : processProject t p with
      | error e2 =>
        rw [hps, hpt] at hstep
        exact hstep
      | ok t1 =>
        rw [hps, hpt] at hstep
        exact hstep.elim
    | ok s1 =>
      cases hpt : processProject t p with
      | error e2 =>
        rw [hps, hpt] at hstep
        exact hstep.elim
      | ok t1 =>
        rw [hps, hpt] at hstep
        exact ih s1 t1 hstep

/-- Claim C8: the aggregation step is deterministic for a fixed input
project list.  The only place Python iterates an unordered structure in
an observable way is the per-project index-update loop over the key set;
for every key-iteration order (any permutation of the key set), the
aggregation produces observably identical results — the same
institution→projects index (same list for every key), the same pairwise
collaboration counts, the same funding-scheme collection and the same
accepted-projects list — so two runs on the same input agree. -/
theorem claim_C8 (order : List String → List String)
    (horder : ∀ l : List String, List.Perm (order l) l)
    (ps : List Project) :
    ObsEqE (extract_collaborationsWith order ps)
      (extract_collaborations ps) := by
  have hf := foldl_obsEq order horder ps ⟨[], [], [], [], []⟩
    ⟨[], [], [], [], []⟩ ⟨fun k => rfl, rfl, rfl, rfl, rfl⟩
  have hdef : List.foldlM (processProjectWith (fun l => l))
      (⟨[], [], [], [], []⟩ : AggState) ps =
      List.foldlM processProject (⟨[], [], [], [], []⟩ : AggState) ps := rfl
  cases h1 : ps.foldlM (processProjectWith order) ⟨[], [], [], [], []⟩ with
  | error e1 =>
    have he1 : extract_collaborationsWith order ps = Except.error e1 := by
      unfold extract_collaborationsWith
      rw [h1]
    cases h2 : ps.foldlM processProject ⟨[], [], [], [], []⟩ with
    | error e2 =>
      have he2 : extract_collaborations ps = Except.error e2 := by
        unfold extract_collaborations extract_collaborationsWith
        rw [hdef, h2]
      rw [he1, he2]
      rw [h1, h2] at hf
      exact hf
    | ok t1 =>
      rw [h1, h2] at hf
      exact hf.elim
  | ok s1 =>
    cases h2 : ps.foldlM processProject ⟨[], [], [], [], []⟩ with
    | error e2 =>
      rw [h1, h2] at hf
      exact hf.elim
    | ok t1 =>
      rw [h1, h2] at hf
      have hs : pySortSchemes s1.funding_schemes =
          pySortSchemes t1.funding_schemes := by rw [hf.2.2.1]
      cases h3 : pySortSchemes s1.funding_schemes with
      | error e3 =>
        have he1 : extract_collaborationsWith order ps =
            Except.error e3 := by
          unfold extract_collaborationsWith
          rw [h1]
          show (match pySortSchemes s1.funding_schemes with
            | Except.error e => Except.error e
            | Except.ok fs =>
              Except.ok { s1 with funding_schemes := fs }) = Except.error e3
          rw [h3]
        have he2 : extract_collaborations ps = Except.error e3 := by
          unfold extract_collaborations extract_collaborationsWith
          rw [hdef, h2]
          show (match pySortSchemes t1.funding_schemes with
            | Except.error e => Except.error e
            | Except.ok fs =>
              Except.ok { t1 with funding_schemes := fs }) = Except.error e3
          rw [← hs, h3]
        rw [he1, he2]
        exact rfl
      | ok fs =>
        have he1 : extract_collaborationsWith order ps =
            Except.ok { s1 with funding_schemes := fs } := by
          unfold extract_collaborationsWith
          rw [h1]
          show (match pySortSchemes s1.funding_schemes with
            | Except.error e => Except.error e
            | Except.ok fs2 =>
              Except.ok { s1 with funding_schemes := fs2 }) =
            Except.ok { s1 with funding_schemes := fs }
          rw [h3]
        have he2 : extract_collaborations ps =
            Except.ok { t1 with funding_schemes := fs } := by
          unfold extract_collaborations extract_collaborationsWith
          rw [hdef, h2]
          show (match pySortSchemes t1.funding_schemes with
            | Except.error e => Except.error e
            | Except.ok fs2 =>
              Except.ok { t1 with funding_schemes := fs2 }) =
            Except.ok { t1 with funding_schemes := fs }
          rw [← hs, h3]
        rw [he1, he2]
        exact ⟨hf.1, hf.2.1, rfl, hf.2.2.2.1, hf.2.2.2.2⟩

/-- Witness for C8: reversed key-iteration order on a concrete run. -/
theorem claim_C8_witness :
    ObsEqE (extract_collaborationsWith List.reverse [pC1, pC2])
      (extract_collaborations [pC1, pC2]) :=
  claim_C8 List.reverse (fun l => l.reverse_perm) [pC1, pC2]

example : pySplit "https://ror.org/abc" "ror.org/" = ["https://", "abc"] := by decide
example : pySplit "TU Delft||Faculty of EEMCS" "||" = ["TU Delft", "Faculty of EEMCS"] := by decide
example : pyStrip "  a b " = "a b" := by decide
example : resolveMember ⟨none, none, none, some "TU Delft||Faculty of EEMCS"⟩ =
    some (MemberRes.org ⟨"Delft University of Technology", 520024, 43736⟩) := by decide
example : resolveMember ⟨some "-", some "https://ror.org/abc", none, none⟩ = none := by decide
example : resolveMember ⟨some "https://ror.org/05xvt9f17", none, none, none⟩ =
    some (MemberRes.ror "05xvt9f17") := by decide

end OSNL
